import Mathlib

/-!
Verification development for `pyquake/blendmdl.py`.

The module converts Quake alias models into Blender objects.  We give a
shallow embedding: pure Python list/dict computations become Lean list
functions, Blender/numpy side effects are recorded explicitly in result
structures, and Python exceptions become `Except` errors.  Times and
texture coordinates are modelled as rationals (exact values of the Python
floats/ints involved), vertex coordinates as rational triples.
-/

set_option maxRecDepth 40000

namespace BlendMdl

/-- Coordinate triple for a model vertex (`simple_frame.frame_verts` entries). -/
abbrev Vec3 := Rat × Rat × Rat

/-- Frame type tag of the external `mdl` module (`mdl.FrameType`): a frame is
either a single pose or a group of poses. -/
inductive FrameType where
  | SINGLE
  | GROUP
deriving DecidableEq, Inhabited

/-- Simple (single-pose) frame of the alias model: a name and per-vertex
coordinates, as exposed by the upstream asset loader. -/
structure SimpleFrame where
  name : String
  frame_verts : List Vec3
deriving DecidableEq, Inhabited

/-- Frame of the alias model.  In Python the object carries `frame_type` and,
depending on it, a `.frame` (single pose) or `.frames`/`.times` (group of
poses with timestamps); we model all attributes as fields. -/
structure ModelFrame where
  frame_type : FrameType
  frame : SimpleFrame
  frames : List SimpleFrame
  times : List Rat
deriving DecidableEq, Inhabited

/-- Modelled from the spec: the upstream `mdl.AliasModel` interface that
`blendmdl.py` consumes (the spec's "model object exposing frames, triangles,
disjoint triangle groupings, skin pixel data, and texture-coordinate
lookups"); the asset parser itself is outside this module.  Fields: frames,
triangles (vertex index triples, modelled as lists), the disjoint triangle
sets, per-triangle texture coordinates, skin dimensions, the per-triangle
skin mask/pixels, and the number of skins. -/
structure AliasMdl where
  frames : List ModelFrame
  tris : List (List Nat)
  disjoint_tri_sets : List (List Nat)
  get_tri_tcs : Nat → List (Int × Int)
  skin_width : Nat
  skin_height : Nat
  get_tri_skin : Nat → Nat → List (Bool × Nat)
  numSkins : Nat

/-- Effective per-model configuration after merging (the keys `add_model`
reads: `sample_as_light`, `force_fullbright`, `strength`). -/
structure MdlCfg where
  sample_as_light : Bool
  force_fullbright : Bool
  strength : Rat
deriving DecidableEq, Inhabited

/-- Per-model override dictionary entry (a partial configuration, merged over
the default by `dict.update`). -/
structure PartialCfg where
  sample_as_light : Option Bool
  force_fullbright : Option Bool
  strength : Option Rat
deriving DecidableEq, Inhabited

/-- The `mdls_cfg` argument: the `__default__` entry plus per-model-name
override entries. -/
structure MdlsCfg where
  default_cfg : MdlCfg
  overrides : List (String × PartialCfg)
deriving DecidableEq, Inhabited

/-- Embedding of `_get_model_config`: start from `mdls_cfg['__default__']` and
update key-wise with `mdls_cfg.get(mdl_name, {})`. -/
def _get_model_config (mdl_name : String) (mdls_cfg : MdlsCfg) : MdlCfg :=
  match mdls_cfg.overrides.find? (fun p => p.1 == mdl_name) with
  | none => mdls_cfg.default_cfg
  | some p =>
    { sample_as_light := p.2.sample_as_light.getD mdls_cfg.default_cfg.sample_as_light
      force_fullbright := p.2.force_fullbright.getD mdls_cfg.default_cfg.force_fullbright
      strength := p.2.strength.getD mdls_cfg.default_cfg.strength }

/-! ## `_simplify_pydata` -/

/-- One step of building `vert_map`: `if vert_idx not in vert_map:
vert_map.append(vert_idx)`. -/
def insertNew (vert_map : List Nat) (vert_idx : Nat) : List Nat :=
  if vert_idx ∈ vert_map then vert_map else vert_map ++ [vert_idx]

/-- Inner loop of `_simplify_pydata` over one triangle: extend `vert_map` and
record `vert_map.index(vert_idx)` for each vertex of the triangle. -/
def procTri (vert_map : List Nat) : List Nat → List Nat × List Nat
  | [] => (vert_map, [])
  | vert_idx :: rest =>
    let vm := insertNew vert_map vert_idx
    let r := procTri vm rest
    (r.1, List.indexOf vert_idx vm :: r.2)

/-- Outer loop of `_simplify_pydata` over the triangle list. -/
def procTris (vert_map : List Nat) : List (List Nat) → List Nat × List (List Nat)
  | [] => (vert_map, [])
  | tri :: rest =>
    let r1 := procTri vert_map tri
    let r2 := procTris r1.1 rest
    (r2.1, r1.2 :: r2.2)

/-- Embedding of `_simplify_pydata`: deduplicate vertex indices used by `tris`
into `vert_map`, renumber the triangles, and gather the used vertices.
Returns `((new_verts, edges, new_tris), vert_map)` exactly as the source
does (the middle component, the edge list, is always empty).  The vertex
lookup is total here (`getD`); the `IndexError` the source's
`[verts[old_vert_idx] for old_vert_idx in vert_map]` raises on an
out-of-range index is modelled at the call site in `processTriSet`, which
guards the returned vertex map against `verts.length` at exactly that point
of the computation. -/
def _simplify_pydata {α : Type} [Inhabited α] (verts : List α) (tris : List (List Nat)) :
    (List α × List Unit × List (List Nat)) × List Nat :=
  let r := procTris [] tris
  ((r.1.map (fun old_vert_idx => verts.getD old_vert_idx default), [], r.2), r.1)

/-! ## Shape-key blocks and `_animate` -/

/-- A Blender shape-key block as created by `_create_block`: its name and the
coordinates written into `block.data`. -/
structure Block where
  name : String
  data : List Vec3
deriving DecidableEq, Inhabited

/-- Embedding of `_create_block`: `obj.shape_key_add(name=simple_frame.name)`
followed by writing `simple_frame.frame_verts[old_vert_idx]` into the block
data for each `old_vert_idx` in `vert_map` (the block data has exactly one
slot per mesh vertex, i.e. per `vert_map` entry).  Returns `none` when some
`old_vert_idx` is out of range of `frame_verts` (Python `IndexError`). -/
def _create_block (name : String) (frame_verts : List Vec3) (vert_map : List Nat) :
    Option Block :=
  if vert_map.all (fun old_vert_idx => old_vert_idx < frame_verts.length) then
    some ⟨name, vert_map.map (fun old_vert_idx => frame_verts.getD old_vert_idx default)⟩
  else none

/-- Keyframe interpolation mode (Blender starts keyframes as `BEZIER`;
`_animate` rewrites them to `LINEAR`). -/
inductive Interp where
  | BEZIER
  | LINEAR
deriving DecidableEq, Inhabited

/-- One inserted keyframe point: the frame number passed to
`keyframe_insert`, the `value` at insertion time, and its interpolation. -/
structure KFP where
  frame : Int
  value : Rat
  interp : Interp
deriving DecidableEq, Inhabited

/-- Python `int(round(x))` on an exact rational value: round half to even. -/
def pyRound (q : Rat) : Int :=
  if q - ⌊q⌋ < 1 / 2 then ⌊q⌋
  else if q - ⌊q⌋ > 1 / 2 then ⌊q⌋ + 1
  else if ⌊q⌋ % 2 = 0 then ⌊q⌋ else ⌊q⌋ + 1

/-- Event log of the `keyframe_insert` calls made by `_animate`'s loop, as
pairs of the looked-up block key (`frame_num`) and the inserted keyframe.
`prev` carries `prev_time`/`prev_block` (both are `None` exactly together,
and a Blender block object is always truthy, so one `Option` is faithful). -/
def animateEvents (fps : Rat) : Option (Rat × Nat) → List (Rat × Nat) → List (Nat × KFP)
  | _, [] => []
  | prev, (time, frame_num) :: rest =>
    ((frame_num, ⟨pyRound (fps * time), 1, Interp.BEZIER⟩) ::
      (match prev with
       | none => []
       | some prev_entry =>
         [(frame_num, ⟨pyRound (fps * prev_entry.1), 0, Interp.BEZIER⟩),
          (prev_entry.2, ⟨pyRound (fps * time), 0, Interp.BEZIER⟩)])) ++
    animateEvents fps (some (time, frame_num)) rest

/-- Embedding of `_animate`: the keyframes inserted for each block key, with
the final pass (`if prev_time is not None`) setting every keyframe point of
the action to `LINEAR` interpolation. -/
def _animate (frames : List (Rat × Nat)) (fps : Rat) : List (Nat × KFP) :=
  let evs := animateEvents fps none frames
  match frames with
  | [] => evs
  | _ :: _ => evs.map (fun e => (e.1, { e.2 with interp := Interp.LINEAR }))

/-! ## `_set_uvs` -/

/-- Embedding of `_set_uvs`: for each `(bm_face, tri_idx)` in
`zip(bm.faces, tri_set)` and each `(bm_loop, (s, t))` in
`zip(bm_face.loops, tcs)`, the UV written into the loop is
`(s / skin_width, t / skin_height)`.  Faces are given by their loop lists;
the result lists the UVs assigned per face, per loop. -/
def _set_uvs (am : AliasMdl) (faces : List (List Unit)) (tri_set : List Nat) :
    List (List (Rat × Rat)) :=
  (faces.zip tri_set).map (fun p =>
    (p.1.zip (am.get_tri_tcs p.2)).map (fun q =>
      ((q.2.1 : Rat) / (am.skin_width : Rat), (q.2.2 : Rat) / (am.skin_height : Rat))))

/-! ## `_get_tri_set_fullbright_frac` -/

/-- All mask/pixel pairs of a triangle set's skin samples, concatenated over
the triangles (each `am.get_tri_skin(tri_idx, skin_idx)` flattened). -/
def triSetTexels (am : AliasMdl) (tri_set : List Nat) (skin_idx : Nat) : List (Bool × Nat) :=
  tri_set.flatMap (fun tri_idx => am.get_tri_skin tri_idx skin_idx)

/-- The accumulated `skin_area`: sum of `np.sum(mask)` over the set. -/
def triSetSkinArea (am : AliasMdl) (tri_set : List Nat) (skin_idx : Nat) : Nat :=
  (triSetTexels am tri_set skin_idx).countP (fun p => p.1)

/-- The accumulated `fullbright_area`: sum of `np.sum(mask * (skin >= 224))`. -/
def triSetFullbrightArea (am : AliasMdl) (tri_set : List Nat) (skin_idx : Nat) : Nat :=
  (triSetTexels am tri_set skin_idx).countP (fun p => p.1 && decide (224 ≤ p.2))

/-- Embedding of `_get_tri_set_fullbright_frac`: the final division
`fullbright_area / skin_area`, with `none` marking the division-by-zero
branch (`skin_area == 0`), which the code does not guard against. -/
def _get_tri_set_fullbright_frac (am : AliasMdl) (tri_set : List Nat) (skin_idx : Nat) :
    Option Rat :=
  if triSetSkinArea am tri_set skin_idx = 0 then none
  else some ((triSetFullbrightArea am tri_set skin_idx : Rat) /
             (triSetSkinArea am tri_set skin_idx : Rat))

/-! ## Palette handling -/

/-- Row-major reshape of a flat list into rows of three (numpy
`reshape(256, 3)` on the 768-byte lump; the ragged case is unreachable for
lengths divisible by 3). -/
def chunk3 {α : Type} : List α → List (List α)
  | a :: b :: c :: rest => [a, b, c] :: chunk3 rest
  | [] => []
  | l => [l]

/-- The palette-decoding step of `load_model`:
`np.fromstring(fs['gfx/palette.lmp'], dtype=np.uint8).reshape(256, 3) / 255`.
Bytes are `Fin 256`; `none` models the `reshape` failure when the lump is
not exactly 768 bytes. -/
def decodePalette (raw : List (Fin 256)) : Option (List (List Rat)) :=
  if raw.length = 768 then
    some (chunk3 (raw.map (fun b => (b.val : Rat) / 255)))
  else none

/-- The palette-extension step of `add_model`:
`np.concatenate([pal, np.ones(256)[:, None]], axis=1)`, i.e. append a
constant `1` alpha entry to every row. -/
def extend_palette (pal : List (List Rat)) : List (List Rat) :=
  pal.map (fun row => row ++ [1])

/-! ## `add_model` -/

/-- Exceptions `add_model` can raise.  The first three are the explicit
`raise Exception(...)` precondition checks; the rest model Python built-in
exceptions raised by indexing, dict lookup, numpy, or the dangling `blocks`
name at the final `return` when the triangle-set loop never ran. -/
inductive AddModelErr where
  | frameTypeNonStatic (ft : FrameType)
  | staticFrameCount (n : Nat)
  | staticFrameType (ft : FrameType)
  | keyError
  | indexError
  | nameError
  | valueError
  | zeroDivisionError
  | broadcastError
deriving DecidableEq, Inhabited

/-- Whether an error is one of the three explicit `raise` precondition
checks of `add_model`. -/
def AddModelErr.isCheckError : AddModelErr → Bool
  | .frameTypeNonStatic _ => true
  | .staticFrameCount _ => true
  | .staticFrameType _ => true
  | _ => false

/-- Everything `add_model` creates for one disjoint triangle set: the mesh
object (name, parent, mesh data from `_simplify_pydata`), the shape-key
blocks, the keyframe events inserted by `_animate`, the material assigned
(with whether it was newly created), and the UVs assigned by `_set_uvs`. -/
structure SubObj where
  name : String
  parent : String
  meshVerts : List Vec3
  meshTris : List (List Nat)
  vert_map : List Nat
  blocks : List (Nat × Block)
  animEvents : List (Nat × KFP)
  matName : String
  matCreated : Bool
  uvs : List (List (Rat × Rat))
deriving DecidableEq, Inhabited

/-- The observable outcome of a successful `add_model` call: the top-level
empty object, the extended palette, the created sub-objects, the final
material collection, the `sample_as_light` materials, and the `blocks` dict
returned in the `BlendMdl` (the last sub-object's blocks). -/
structure AddModelResult where
  objName : String
  objIsEmpty : Bool
  extendedPal : List (List Rat)
  subs : List SubObj
  mats : List String
  sample_as_light_mats : List String
  blocks : List (Nat × Block)
deriving DecidableEq, Inhabited

/-- Arguments of `add_model` that stay fixed across the triangle-set loop
(with the per-model configuration already resolved). -/
structure Ctx where
  am : AliasMdl
  mdl_name : String
  obj_name : String
  frames : List (Rat × Nat)
  skin_idx : Nat
  final_time : Rat
  mdl_cfg : MdlCfg
  static : Bool
  fps : Rat

/-- The initial vertex positions used to build each mesh: `am.frames[0].frame`
for a `SINGLE` first frame, else `am.frames[0].frames[0]`; errors model the
`IndexError` on an empty frame list or empty group. -/
def initialPoseVerts (am : AliasMdl) : Except AddModelErr (List Vec3) :=
  match am.frames with
  | [] => .error .indexError
  | f0 :: _ =>
    if f0.frame_type = FrameType.SINGLE then .ok f0.frame.frame_verts
    else
      match f0.frames with
      | [] => .error .indexError
      | sf :: _ => .ok sf.frame_verts

/-- Numpy broadcast of a 1-D row into a row of the given width (used for
`times[:, 1:] = group_frame.times[None, :-1]`): exact width, or a single
element broadcast across the row; anything else fails. -/
def npBroadcastRow (src : List Rat) (width : Nat) : Option (List Rat) :=
  if src.length = width then some src
  else if src.length = 1 then some (List.replicate width (src.headD 0))
  else none

/-- The static-model loop schedule: `num_loops = ceil(final_time / times[-1])`
repetitions of the group's sub-frame times, each loop offset by a multiple
of `times[-1]`, zipped with `cycle(range(len(group_frame.frames)))`.
Errors model, in source order: `times[-1]` on an empty time list, float
division by zero, `np.empty` on a negative row count, column indexing on a
group with no sub-frames, and the broadcast of the time row. -/
def staticLoopFrames (group_frame : ModelFrame) (final_time : Rat) :
    Except AddModelErr (List (Rat × Nat)) :=
  match group_frame.times.getLast? with
  | none => .error .indexError
  | some last =>
    if last = 0 then .error .zeroDivisionError
    else
      let num_loops : Int := ⌈final_time / last⌉
      if num_loops < 0 then .error .valueError
      else
        let n := group_frame.frames.length
        if n = 0 then .error .indexError
        else
          match npBroadcastRow group_frame.times.dropLast (n - 1) with
          | none => .error .broadcastError
          | some row =>
            let times := (List.range num_loops.toNat).flatMap
              (fun k => (0 :: row).map (fun x => x + (k : Rat) * last))
            .ok (times.enum.map (fun p => (p.2, p.1 % n)))

/-- The non-static block-creation loop: for each frame, in order, raise on a
non-`SINGLE` frame type, else create its shape-key block. -/
def mkSingleBlocksAux (vert_map : List Nat) (n : Nat) :
    List ModelFrame → Except AddModelErr (List (Nat × Block))
  | [] => .ok []
  | f :: rest =>
    if f.frame_type ≠ FrameType.SINGLE then .error (.frameTypeNonStatic f.frame_type)
    else
      match _create_block f.frame.name f.frame.frame_verts vert_map with
      | none => .error .indexError
      | some b =>
        match mkSingleBlocksAux vert_map (n + 1) rest with
        | .error e => .error e
        | .ok bs => .ok ((n, b) :: bs)

/-- The static block-creation loop over the group frame's sub-frames. -/
def mkGroupBlocksAux (vert_map : List Nat) (n : Nat) :
    List SimpleFrame → Except AddModelErr (List (Nat × Block))
  | [] => .ok []
  | sf :: rest =>
    match _create_block sf.name sf.frame_verts vert_map with
    | none => .error .indexError
    | some b =>
      match mkGroupBlocksAux vert_map (n + 1) rest with
      | .error e => .error e
      | .ok bs => .ok ((n, b) :: bs)

/-- The shape-key and animation part of one triangle-set iteration: the
non-static branch (per-frame type check, blocks, `_animate` with a
`KeyError` when a requested frame number is not a block key) or the static
branch (frame-count check, frame selection, `GROUP` type check, group
blocks, loop schedule, `_animate`). -/
def tsBlocks (c : Ctx) (vert_map : List Nat) :
    Except AddModelErr (List (Nat × Block) × List (Nat × KFP)) :=
  if c.static = false then
    match mkSingleBlocksAux vert_map 0 c.am.frames with
    | .error e => .error e
    | .ok blocks =>
      if c.frames.all (fun p => p.2 < c.am.frames.length) then
        .ok (blocks, _animate c.frames c.fps)
      else .error .keyError
  else
    if c.frames.length ≠ 1 then .error (.staticFrameCount c.frames.length)
    else
      let fidx := (c.frames.headD (0, 0)).2
      if fidx < c.am.frames.length then
        let group_frame := c.am.frames.getD fidx default
        if group_frame.frame_type = FrameType.GROUP then
          match mkGroupBlocksAux vert_map 0 group_frame.frames with
          | .error e => .error e
          | .ok blocks =>
            match staticLoopFrames group_frame c.final_time with
            | .error e => .error e
            | .ok loop_frames => .ok (blocks, _animate loop_frames c.fps)
        else .error (.staticFrameType group_frame.frame_type)
      else .error .indexError

/-- The material step of one triangle-set iteration: compute the material
name (suffixed per object and triangle set when `sample_as_light` is set),
reuse an existing material of that name, or create it (indexing
`am.skins[skin_idx]`, hence an `IndexError` on a bad skin index).  Returns
the name, whether it was created, the updated collection, and the names
added to `sample_as_light_mats`. -/
def tsMaterial (c : Ctx) (tri_set_idx : Nat) (mats : List String) :
    Except AddModelErr (String × Bool × List String × List String) :=
  let base := c.mdl_name ++ "_skin" ++ toString c.skin_idx
  let mat_name :=
    if c.mdl_cfg.sample_as_light then
      base ++ "_" ++ c.obj_name ++ "_triset" ++ toString tri_set_idx ++ "_fullbright"
    else base
  if mat_name ∈ mats then .ok (mat_name, false, mats, [])
  else
    if c.skin_idx < c.am.numSkins then
      .ok (mat_name, true, mats ++ [mat_name],
           if c.mdl_cfg.sample_as_light then [mat_name] else [])
    else .error .indexError

/-- One iteration of `add_model`'s triangle-set loop: build the mesh object
(initial pose, triangle lookup, `_simplify_pydata`, `from_pydata`, parent to
the top-level empty), the shape-key blocks and animation, the material, and
the UVs.  The comprehension `[verts[old_vert_idx] for old_vert_idx in
vert_map]` in `_simplify_pydata`'s return raises an `IndexError` when some
collected vertex index is out of range of `initial_verts`; that happens
after the vertex map and renumbered triangles are built and before the
shape-key loop, and is modelled by the in-range guard on the returned
vertex map here. -/
def processTriSet (c : Ctx) (tri_set_idx : Nat) (tri_set : List Nat) (mats : List String) :
    Except AddModelErr (SubObj × List String × List String) :=
  match initialPoseVerts c.am with
  | .error e => .error e
  | .ok initial_verts =>
    if tri_set.all (fun t => t < c.am.tris.length) then
      let sp := _simplify_pydata initial_verts (tri_set.map (fun t => c.am.tris.getD t []))
      if sp.2.all (fun old_vert_idx => old_vert_idx < initial_verts.length) then
        match tsBlocks c sp.2 with
        | .error e => .error e
        | .ok br =>
          match tsMaterial c tri_set_idx mats with
          | .error e => .error e
          | .ok mr =>
            .ok (⟨c.obj_name ++ "_triset" ++ toString tri_set_idx, c.obj_name,
                  sp.1.1, sp.1.2.2, sp.2, br.1, br.2, mr.1, mr.2.1,
                  _set_uvs c.am (sp.1.2.2.map (fun tri => tri.map (fun _ => ()))) tri_set⟩,
                 mr.2.2.1, mr.2.2.2)
      else .error .indexError
    else .error .indexError

/-- The `for tri_set_idx, tri_set in enumerate(am.disjoint_tri_sets)` loop,
accumulating sub-objects, the material collection, and the
`sample_as_light` material names; the first exception aborts the loop. -/
def addModelGo (c : Ctx) :
    Nat → List (List Nat) → List String → List SubObj → List String →
    Except AddModelErr (List SubObj × List String × List String)
  | _, [], mats, subs, sal => .ok (subs, mats, sal)
  | tri_set_idx, tri_set :: rest, mats, subs, sal =>
    match processTriSet c tri_set_idx tri_set mats with
    | .error e => .error e
    | .ok r => addModelGo c (tri_set_idx + 1) rest r.2.1 (subs ++ [r.1]) (sal ++ r.2.2)

/-- Embedding of `add_model`: resolve the per-model config, extend the
palette (`np.concatenate` fails unless `pal` has exactly 256 rows), create
the top-level empty named `obj_name`, run the triangle-set loop, and return
the `BlendMdl` (whose `blocks` is the loop's last `blocks` value — a
`NameError` when the loop body never ran).  `mats0` is the material
collection (`bpy.data.materials`) before the call. -/
def add_model (am : AliasMdl) (pal : List (List Rat)) (mdl_name obj_name : String)
    (frames : List (Rat × Nat)) (skin_idx : Nat) (final_time : Rat) (mdls_cfg : MdlsCfg)
    (static : Bool) (fps : Rat) (mats0 : List String) :
    Except AddModelErr AddModelResult :=
  let mdl_cfg := _get_model_config mdl_name mdls_cfg
  if pal.length = 256 then
    let c : Ctx := ⟨am, mdl_name, obj_name, frames, skin_idx, final_time, mdl_cfg, static, fps⟩
    match addModelGo c 0 am.disjoint_tri_sets mats0 [] [] with
    | .error e => .error e
    | .ok r =>
      match r.1.getLast? with
      | none => .error .nameError
      | some lastSub =>
        .ok ⟨obj_name, true, extend_palette pal, r.1, r.2.1, r.2.2, lastSub.blocks⟩
  else .error .valueError

/-! ## The `load_model` → `add_model` call -/

/-- Parameter list of `def add_model(am, pal, mdl_name, obj_name, frames,
skin_idx, final_time, mdls_cfg, static=False, fps=30)`, with whether each
parameter has a default value. -/
def add_model_params : List (String × Bool) :=
  [("am", false), ("pal", false), ("mdl_name", false), ("obj_name", false),
   ("frames", false), ("skin_idx", false), ("final_time", false), ("mdls_cfg", false),
   ("static", true), ("fps", true)]

/-- The positional arguments `load_model` passes in
`add_model(am, pal, mdl_name, obj_name, frames, skin_idx, fps)`. -/
def load_model_call_args : List String :=
  ["am", "pal", "mdl_name", "obj_name", "frames", "skin_idx", "fps"]

/-- Python call binding: a call with only positional arguments raises
`TypeError` iff it supplies fewer arguments than there are parameters
without defaults, or more than there are parameters. -/
def pythonCallRaisesTypeError (args : List String) (params : List (String × Bool)) : Bool :=
  args.length < (params.filter (fun p => !p.2)).length || params.length < args.length

/-! ## Concrete fixtures used by witnesses and counterexamples -/

/-- A minimal one-triangle, one-`SINGLE`-frame alias model. -/
def wAm : AliasMdl :=
  ⟨[⟨FrameType.SINGLE, ⟨"frame1", [(0, 0, 0)]⟩, [], []⟩],
   [[0, 0, 0]], [[0]], fun _ => [(1, 1), (2, 2), (3, 3)], 2, 2,
   fun _ _ => [(true, 230), (true, 0), (false, 255)], 1⟩

/-- An alias model whose only frame is a `GROUP` frame but whose disjoint
triangle set list is empty, so `add_model`'s loop body never runs. -/
def wAmNoSets : AliasMdl :=
  ⟨[⟨FrameType.GROUP, default, [⟨"g0", [(0, 0, 0)]⟩], [1]⟩],
   [], [], fun _ => [], 1, 1, fun _ _ => [], 1⟩

/-- A configuration whose default has `sample_as_light` off. -/
def wCfgF : MdlsCfg := ⟨⟨false, false, 1⟩, []⟩

/-- A configuration whose default has `sample_as_light` on. -/
def wCfgT : MdlsCfg := ⟨⟨true, false, 1⟩, []⟩

/-- A 256-row palette. -/
def wPal : List (List Rat) := List.replicate 256 [0, 0, 0]

/-- A successful non-static `add_model` run on the minimal model. -/
def wRun : Except AddModelErr AddModelResult :=
  add_model wAm wPal "m" "o" [(0, 0)] 0 0 wCfgF false 30 []

/-- A successful non-static `add_model` run with an empty animation
sequence. -/
def wRunNoFrames : Except AddModelErr AddModelResult :=
  add_model wAm wPal "m" "o" [] 0 0 wCfgF false 30 []

/-- First `sample_as_light` run (object name `a`). -/
def wRunSal1 : Except AddModelErr AddModelResult :=
  add_model wAm wPal "m" "a" [(0, 0)] 0 0 wCfgT false 30 []

/-- Second `sample_as_light` run (object name `b`), on the material
collection left by the first. -/
def wRunSal2 : Except AddModelErr AddModelResult :=
  add_model wAm wPal "m" "b" [(0, 0)] 0 0 wCfgT false 30
    (wRunSal1.toOption.getD default).mats

/-- First `sample_as_light`-off run for the material-reuse witness. -/
def wRunMat1 : Except AddModelErr AddModelResult :=
  add_model wAm wPal "m" "a" [(0, 0)] 0 0 wCfgF false 30 []

/-- Second `sample_as_light`-off run for the material-reuse witness. -/
def wRunMat2 : Except AddModelErr AddModelResult :=
  add_model wAm wPal "m" "b" [(0, 0)] 0 0 wCfgF false 30
    (wRunMat1.toOption.getD default).mats

/-! ## Theorems -/

/-- Claim C4: load_model performs the load-asset step and then successfully
invokes add_model so that construction runs.  This FAILS: the call
`add_model(am, pal, mdl_name, obj_name, frames, skin_idx, fps)` supplies
only 7 positional arguments while `add_model` has 8 parameters without
defaults, so every `load_model` call raises `TypeError` (and the `fps`
argument would land in the `final_time` slot).  The theorem records the
mismatch. -/
theorem C4_load_model_call_mismatch :
    pythonCallRaisesTypeError load_model_call_args add_model_params = true ∧
    load_model_call_args.length = 7 ∧
    (add_model_params.filter (fun p => !p.2)).length = 8 ∧
    load_model_call_args.getD 6 "" = "fps" ∧
    (add_model_params.getD 6 ("", false)).1 = "final_time" ∧
    (add_model_params.getD 7 ("", false)).1 = "mdls_cfg" := by decide

/-- Claim C9: `_get_tri_set_fullbright_frac` divides by the total mask area
with no guard.  If the summed mask area is positive the division is
well-defined, equals the fraction of masked texels with palette index at
least 224, and lies in `[0, 1]`; with an all-zero mask the accumulated
`skin_area` is `0` and the division-by-zero branch is reached. -/
theorem C9_fullbright_frac :
    (∀ (am : AliasMdl) (tri_set : List Nat) (skin_idx : Nat),
      0 < triSetSkinArea am tri_set skin_idx →
      _get_tri_set_fullbright_frac am tri_set skin_idx =
        some ((triSetFullbrightArea am tri_set skin_idx : Rat) /
              (triSetSkinArea am tri_set skin_idx : Rat)) ∧
      ∀ q, _get_tri_set_fullbright_frac am tri_set skin_idx = some q →
        0 ≤ q ∧ q ≤ 1) ∧
    (∀ (am : AliasMdl) (tri_set : List Nat) (skin_idx : Nat),
      (∀ p ∈ triSetTexels am tri_set skin_idx, p.1 = false) →
      triSetSkinArea am tri_set skin_idx = 0 ∧
      _get_tri_set_fullbright_frac am tri_set skin_idx = none) := by
  constructor
  · intro am tri_set skin_idx hpos
    have hne : triSetSkinArea am tri_set skin_idx ≠ 0 := Nat.pos_iff_ne_zero.mp hpos
    have heq : _get_tri_set_fullbright_frac am tri_set skin_idx =
        some ((triSetFullbrightArea am tri_set skin_idx : Rat) /
              (triSetSkinArea am tri_set skin_idx : Rat)) := by
      simp [_get_tri_set_fullbright_frac, hne]
    refine ⟨heq, ?_⟩
    intro q hq
    rw [heq] at hq
    obtain rfl : ((triSetFullbrightArea am tri_set skin_idx : Rat) /
        (triSetSkinArea am tri_set skin_idx : Rat)) = q := by
      exact Option.some.inj hq
    have hle : triSetFullbrightArea am tri_set skin_idx ≤ triSetSkinArea am tri_set skin_idx := by
      unfold triSetFullbrightArea triSetSkinArea
      exact List.countP_mono_left (fun x _ h => by
        simp only [Bool.and_eq_true] at h
        exact h.1)
    have hcast : (triSetFullbrightArea am tri_set skin_idx : Rat) ≤
        (triSetSkinArea am tri_set skin_idx : Rat) := by exact_mod_cast hle
    have hposQ : (0 : Rat) < (triSetSkinArea am tri_set skin_idx : Rat) := by
      exact_mod_cast hpos
    constructor
    · positivity
    · exact (div_le_one hposQ).mpr hcast
  · intro am tri_set skin_idx hmask
    have hz : triSetSkinArea am tri_set skin_idx = 0 := by
      unfold triSetSkinArea
      rw [List.countP_eq_zero]
      intro p hp
      simp [hmask p hp]
    exact ⟨hz, by simp [_get_tri_set_fullbright_frac, hz]⟩

/-- Witness for C9 on the minimal model: its single triangle has two masked
texels, one of them fullbright, so the fraction is `1 / 2`. -/
theorem C9_fullbright_frac_witness :
    (0 < triSetSkinArea wAm [0] 0 ∧
      _get_tri_set_fullbright_frac wAm [0] 0 =
        some ((triSetFullbrightArea wAm [0] 0 : Rat) / (triSetSkinArea wAm [0] 0 : Rat))) ∧
    ((∀ p ∈ triSetTexels wAmNoSets [0] 0, p.1 = false) ∧
      triSetSkinArea wAmNoSets [0] 0 = 0 ∧
      _get_tri_set_fullbright_frac wAmNoSets [0] 0 = none) :=
  ⟨⟨by decide, (C9_fullbright_frac.1 wAm [0] 0 (by decide)).1⟩,
   ⟨by decide, C9_fullbright_frac.2 wAmNoSets [0] 0 (by decide)⟩⟩

/-- Elimination of a successful `add_model` call into its pieces: the palette
row-count check passed, the triangle-set loop succeeded, its sub-object list
is non-empty, and the result fields are as assembled at the `return`. -/
theorem add_model_ok_elim {am pal mdl_name obj_name frames skin_idx final_time mdls_cfg
    static fps mats0 r}
    (h : add_model am pal mdl_name obj_name frames skin_idx final_time mdls_cfg
        static fps mats0 = .ok r) :
    pal.length = 256 ∧
    ∃ out, addModelGo ⟨am, mdl_name, obj_name, frames, skin_idx, final_time,
        _get_model_config mdl_name mdls_cfg, static, fps⟩ 0 am.disjoint_tri_sets
        mats0 [] [] = .ok out ∧
      ∃ lastSub, out.1.getLast? = some lastSub ∧
        r = ⟨obj_name, true, extend_palette pal, out.1, out.2.1, out.2.2, lastSub.blocks⟩ := by
  simp only [add_model] at h
  split at h
  · refine ⟨by assumption, ?_⟩
    split at h
    · exact absurd h (by simp)
    · rename_i out hout
      refine ⟨out, hout, ?_⟩
      split at h
      · exact absurd h (by simp)
      · rename_i lastSub hlast
        exact ⟨lastSub, hlast, (Except.ok.inj h).symm⟩
  · exact absurd h (by simp)

/-- Chunking a list whose length is `3 * n` yields `n` rows of three. -/
theorem chunk3_length_arity {α : Type} :
    ∀ (n : Nat) (l : List α), l.length = 3 * n →
      (chunk3 l).length = n ∧ ∀ row ∈ chunk3 l, row.length = 3
  | 0, [], _ => by simp [chunk3]
  | 0, _ :: _, h => by simp at h
  | n + 1, [], h => by simp at h
  | n + 1, [a], h => by simp at h; omega
  | n + 1, [a, b], h => by simp at h; omega
  | n + 1, a :: b :: c :: rest, h => by
    have hr : rest.length = 3 * n := by simp at h; omega
    have ih := chunk3_length_arity n rest hr
    refine ⟨by simp [chunk3, ih.1], ?_⟩
    intro row hrow
    simp only [chunk3, List.mem_cons] at hrow
    rcases hrow with rfl | hrow
    · rfl
    · exact ih.2 row hrow

/-- Every entry of a `chunk3` row comes from the original list. -/
theorem chunk3_mem {α : Type} :
    ∀ (l : List α), ∀ row ∈ chunk3 l, ∀ x ∈ row, x ∈ l
  | [] => by simp [chunk3]
  | [a] => by
    intro row hrow x hx
    simp only [chunk3, List.mem_singleton] at hrow
    subst hrow
    simpa using hx
  | [a, b] => by
    intro row hrow x hx
    simp only [chunk3, List.mem_singleton] at hrow
    subst hrow
    simpa using hx
  | a :: b :: c :: rest => by
    intro row hrow x hx
    simp only [chunk3, List.mem_cons] at hrow
    rcases hrow with rfl | hrow
    · simp only [List.mem_cons] at hx
      rcases hx with rfl | rfl | rfl | h
      · simp
      · simp
      · simp
      · simp at h
    · have := chunk3_mem rest row hrow x hx
      simp [this]

/-- Claim C7: the palette is a fixed 256-entry table.  `load_model`'s decode
step turns a 768-byte lump into 256 rows of three values in `[0, 1]` and
fails on any other lump size; `add_model` extends a 256x3 palette to a
256x4 table whose added column is constantly `1`, its result records this
extended table, and it fails (`np.concatenate` shape error) whenever the
palette does not have exactly 256 rows. -/
theorem C7_palette :
    (∀ raw : List (Fin 256), raw.length = 768 →
      decodePalette raw = some (chunk3 (raw.map (fun b => (b.val : Rat) / 255))) ∧
      ∀ p, decodePalette raw = some p →
        p.length = 256 ∧ ∀ row ∈ p, row.length = 3 ∧ ∀ x ∈ row, 0 ≤ x ∧ x ≤ 1) ∧
    (∀ raw : List (Fin 256), raw.length ≠ 768 → decodePalette raw = none) ∧
    (∀ pal : List (List Rat), pal.length = 256 → (∀ row ∈ pal, row.length = 3) →
      (extend_palette pal).length = 256 ∧
      ∀ row ∈ extend_palette pal, row.length = 4 ∧ row.getLast? = some 1) ∧
    (∀ am pal mdl_name obj_name frames skin_idx final_time mdls_cfg static fps mats0 r,
      add_model am pal mdl_name obj_name frames skin_idx final_time mdls_cfg
          static fps mats0 = .ok r →
      r.extendedPal = extend_palette pal) ∧
    (∀ am pal mdl_name obj_name frames skin_idx final_time mdls_cfg static fps mats0,
      pal.length ≠ 256 →
      add_model am pal mdl_name obj_name frames skin_idx final_time mdls_cfg
          static fps mats0 = .error .valueError) := by
  refine ⟨?_, ?_, ?_, ?_, ?_⟩
  · intro raw h768
    have hdec : decodePalette raw = some (chunk3 (raw.map (fun b => (b.val : Rat) / 255))) := by
      simp [decodePalette, h768]
    refine ⟨hdec, ?_⟩
    intro p hp
    rw [hdec] at hp
    obtain rfl : chunk3 (raw.map (fun b => (b.val : Rat) / 255)) = p := Option.some.inj hp
    have hlen : (raw.map (fun b => (b.val : Rat) / 255)).length = 3 * 256 := by
      simp [h768]
    have hchunk := chunk3_length_arity 256 _ hlen
    refine ⟨hchunk.1, ?_⟩
    intro row hrow
    refine ⟨hchunk.2 row hrow, ?_⟩
    intro x hx
    have hxmem := chunk3_mem _ row hrow x hx
    obtain ⟨b, _, rfl⟩ := List.mem_map.mp hxmem
    constructor
    · positivity
    · rw [div_le_one (by norm_num)]
      have hb : (b.val : Rat) ≤ 255 := by
        have := b.isLt
        exact_mod_cast Nat.le_of_lt_succ this
      exact hb
  · intro raw hne
    simp [decodePalette, hne]
  · intro pal hlen hrows
    refine ⟨by simp [extend_palette, hlen], ?_⟩
    intro row hrow
    obtain ⟨row0, hrow0, rfl⟩ := List.mem_map.mp hrow
    constructor
    · simp [hrows row0 hrow0]
    · simp
  · intro am pal mdl_name obj_name frames skin_idx final_time mdls_cfg static fps mats0 r h
    obtain ⟨-, out, -, lastSub, -, rfl⟩ := add_model_ok_elim h
    rfl
  · intro am pal mdl_name obj_name frames skin_idx final_time mdls_cfg static fps mats0 hne
    unfold add_model
    simp [hne]

/-- Witness for C7 at concrete inputs: a 768-byte lump, a wrong-size lump, a
256x3 palette, a successful `add_model` run, and a wrong-size palette. -/
theorem C7_palette_witness :
    ((List.replicate 768 (0 : Fin 256)).length = 768 ∧
      decodePalette (List.replicate 768 (0 : Fin 256)) =
        some (chunk3 ((List.replicate 768 (0 : Fin 256)).map (fun b => (b.val : Rat) / 255)))) ∧
    ((List.replicate 3 (0 : Fin 256)).length ≠ 768 ∧
      decodePalette (List.replicate 3 (0 : Fin 256)) = none) ∧
    ((extend_palette wPal).length = 256) ∧
    (wRun = .ok (wRun.toOption.getD default) →
      (wRun.toOption.getD default).extendedPal = extend_palette wPal) ∧
    (add_model wAm [] "m" "o" [(0, 0)] 0 0 wCfgF false 30 [] = .error .valueError) := by
  refine ⟨⟨List.length_replicate 768 0,
            (C7_palette.1 (List.replicate 768 (0 : Fin 256)) (List.length_replicate 768 0)).1⟩,
          ⟨by rw [List.length_replicate]; decide,
            C7_palette.2.1 (List.replicate 3 (0 : Fin 256))
              (by rw [List.length_replicate]; decide)⟩,
          (C7_palette.2.2.1 wPal (by decide) ?_).1,
          fun h => C7_palette.2.2.2.1 wAm wPal "m" "o" [(0, 0)] 0 0 wCfgF false 30 []
            (wRun.toOption.getD default) h,
          C7_palette.2.2.2.2 wAm [] "m" "o" [(0, 0)] 0 0 wCfgF false 30 [] (by decide)⟩
  intro row hrow
  have : row = [0, 0, 0] := List.eq_of_mem_replicate hrow
  simp [this]

/-- Claim C6: for every mesh, the UV step writes into the `j`-th loop of the
face paired with triangle `tri_idx` the normalised texture coordinates
`(s / skin_width, t / skin_height)`, where `(s, t)` is the `j`-th texture
coordinate returned for that triangle. -/
theorem C6_set_uvs (am : AliasMdl) (faces : List (List Unit)) (tri_set : List Nat)
    (i j : Nat) (hi1 : i < faces.length) (hi2 : i < tri_set.length)
    (hj1 : j < (faces.getD i []).length)
    (hj2 : j < (am.get_tri_tcs (tri_set.getD i 0)).length) :
    ((_set_uvs am faces tri_set).getD i []).getD j (0, 0) =
      ((((am.get_tri_tcs (tri_set.getD i 0)).getD j (0, 0)).1 : Rat) / (am.skin_width : Rat),
       (((am.get_tri_tcs (tri_set.getD i 0)).getD j (0, 0)).2 : Rat) / (am.skin_height : Rat)) := by
  have hiz : i < (faces.zip tri_set).length := by
    rw [List.length_zip]
    omega
  have hiu : i < (_set_uvs am faces tri_set).length := by
    simp only [_set_uvs, List.length_map]
    exact hiz
  rw [List.getD_eq_getElem _ _ hiu]
  simp only [_set_uvs, List.getElem_map, List.getElem_zip]
  have hface : faces[i] = faces.getD i [] := (List.getD_eq_getElem _ _ hi1).symm
  have htri : tri_set[i] = tri_set.getD i 0 := (List.getD_eq_getElem _ _ hi2).symm
  rw [hface, htri]
  have hjz : j < ((faces.getD i []).zip (am.get_tri_tcs (tri_set.getD i 0))).length := by
    rw [List.length_zip]
    omega
  have hjm : j < (((faces.getD i []).zip (am.get_tri_tcs (tri_set.getD i 0))).map
      (fun q => ((q.2.1 : Rat) / (am.skin_width : Rat),
                 (q.2.2 : Rat) / (am.skin_height : Rat)))).length := by
    rw [List.length_map]
    exact hjz
  rw [List.getD_eq_getElem _ _ hjm]
  simp only [List.getElem_map, List.getElem_zip]
  rw [List.getD_eq_getElem _ _ hj2]

/-- Witness for C6: on the minimal model's run, loop `1` of face `0` gets the
second texture coordinate `(2, 2)` divided by the `2`x`2` skin size. -/
theorem C6_set_uvs_witness :
    (0 < ([[(), (), ()]] : List (List Unit)).length ∧ 0 < ([0] : List Nat).length ∧
      1 < (([[(), (), ()]] : List (List Unit)).getD 0 []).length ∧
      1 < (wAm.get_tri_tcs (([0] : List Nat).getD 0 0)).length) ∧
    ((_set_uvs wAm [[(), (), ()]] [0]).getD 0 []).getD 1 (0, 0) =
      ((((wAm.get_tri_tcs (([0] : List Nat).getD 0 0)).getD 1 (0, 0)).1 : Rat) /
        (wAm.skin_width : Rat),
       (((wAm.get_tri_tcs (([0] : List Nat).getD 0 0)).getD 1 (0, 0)).2 : Rat) /
        (wAm.skin_height : Rat)) :=
  ⟨⟨by decide, by decide, by decide, by decide⟩,
   C6_set_uvs wAm [[(), (), ()]] [0] 0 1 (by decide) (by decide) (by decide) (by decide)⟩

/-! ## `_animate` lemmas for claim C10 -/

/-- The `value = 1.0` keyframe inserted for the `i`-th entry of the frame
sequence is in the event log, whatever the incoming `prev` state. -/
theorem animateEvents_own (fps : Rat) :
    ∀ (l : List (Rat × Nat)) (prev : Option (Rat × Nat)) (i : Nat), i < l.length →
      ((l.getD i default).2, ⟨pyRound (fps * (l.getD i default).1), 1, Interp.BEZIER⟩) ∈
        animateEvents fps prev l
  | [], _, i, hi => by simp at hi
  | (t, f) :: rest, prev, 0, _ => by
    simp [animateEvents]
  | (t, f) :: rest, prev, i + 1, hi => by
    have ih := animateEvents_own fps rest (some (t, f)) i (by simpa using hi)
    simp only [animateEvents, List.getD_cons_succ]
    exact List.mem_append_right _ ih

/-- The two cross-fade `value = 0.0` keyframes between the incoming `prev`
entry and the head of the sequence are in the event log. -/
theorem animateEvents_cross_head (fps : Rat) (pt : Rat) (pf : Nat) (t : Rat) (f : Nat)
    (rest : List (Rat × Nat)) :
    (f, ⟨pyRound (fps * pt), 0, Interp.BEZIER⟩) ∈
      animateEvents fps (some (pt, pf)) ((t, f) :: rest) ∧
    (pf, ⟨pyRound (fps * t), 0, Interp.BEZIER⟩) ∈
      animateEvents fps (some (pt, pf)) ((t, f) :: rest) := by
  constructor <;> simp [animateEvents]

/-- The cross-fade keyframes between consecutive entries `i` and `i + 1` of
the frame sequence are in the event log. -/
theorem animateEvents_cross (fps : Rat) :
    ∀ (l : List (Rat × Nat)) (prev : Option (Rat × Nat)) (i : Nat), i + 1 < l.length →
      ((l.getD (i + 1) default).2,
        ⟨pyRound (fps * (l.getD i default).1), 0, Interp.BEZIER⟩) ∈
          animateEvents fps prev l ∧
      ((l.getD i default).2,
        ⟨pyRound (fps * (l.getD (i + 1) default).1), 0, Interp.BEZIER⟩) ∈
          animateEvents fps prev l
  | [], _, i, hi => by simp at hi
  | (t, f) :: rest, prev, 0, hi => by
    match rest, hi with
    | (t', f') :: rest', _ =>
      have hh := animateEvents_cross_head fps t f t' f' rest'
      constructor
      · simp only [animateEvents, List.getD_cons_succ, List.getD_cons_zero]
        exact List.mem_append_right _ hh.1
      · simp only [animateEvents, List.getD_cons_succ, List.getD_cons_zero]
        exact List.mem_append_right _ hh.2
  | (t, f) :: rest, prev, i + 1, hi => by
    have ih := animateEvents_cross fps rest (some (t, f)) i (by simpa using hi)
    simp only [animateEvents, List.getD_cons_succ]
    exact ⟨List.mem_append_right _ ih.1, List.mem_append_right _ ih.2⟩

/-- Every event in the log is keyed either by a frame number referenced in
the sequence or by the incoming `prev` entry's frame number. -/
theorem animateEvents_keys (fps : Rat) :
    ∀ (l : List (Rat × Nat)) (prev : Option (Rat × Nat)) (ev : Nat × KFP),
      ev ∈ animateEvents fps prev l →
      ev.1 ∈ l.map Prod.snd ∨ ∃ p, prev = some p ∧ ev.1 = p.2
  | [], _, ev, h => by simp [animateEvents] at h
  | (t, f) :: rest, prev, ev, h => by
    simp only [animateEvents, List.mem_append, List.mem_cons] at h
    rcases h with (rfl | h) | h
    · left
      simp
    · match prev, h with
      | some (pt, pf), h =>
        simp only [List.mem_cons, List.not_mem_nil, or_false] at h
        rcases h with rfl | rfl
        · left; simp
        · right; exact ⟨(pt, pf), rfl, rfl⟩
    · rcases animateEvents_keys fps rest (some (t, f)) ev h with hm | ⟨p, hp, hk⟩
      · left
        simp only [List.map_cons, List.mem_cons]
        exact Or.inr hm
      · left
        obtain rfl : p = (t, f) := by
          injection hp with hp'
          exact hp'.symm
        simp [hk]

/-- Membership transfer from the raw event log to `_animate`'s result (which
rewrites every interpolation to `LINEAR`) for a non-empty sequence. -/
theorem mem_animate_of_mem_events {fps : Rat} {l : List (Rat × Nat)} {k : Nat}
    {fr : Int} {v : Rat} (hne : l ≠ [])
    (h : (k, (⟨fr, v, Interp.BEZIER⟩ : KFP)) ∈ animateEvents fps none l) :
    (k, (⟨fr, v, Interp.LINEAR⟩ : KFP)) ∈ _animate l fps := by
  unfold _animate
  match l, hne with
  | (t, f) :: rest, _ =>
    exact List.mem_map.mpr ⟨(k, ⟨fr, v, Interp.BEZIER⟩), h, rfl⟩

/-- Claim C10: `_animate` implements cross-fade weight curves.  Every entry
gets a `value = 1.0` keyframe at `round(fps * time)`; whenever an entry has
a predecessor, the entry's block gets a `value = 0.0` keyframe at the
predecessor's time and the predecessor's block a `value = 0.0` keyframe at
the entry's time; and after a non-empty sequence every keyframe point has
`LINEAR` interpolation. -/
theorem C10_animate (frames : List (Rat × Nat)) (fps : Rat) :
    (∀ i, i < frames.length →
      ((frames.getD i default).2,
        (⟨pyRound (fps * (frames.getD i default).1), 1, Interp.LINEAR⟩ : KFP)) ∈
        _animate frames fps) ∧
    (∀ i, i + 1 < frames.length →
      ((frames.getD (i + 1) default).2,
        (⟨pyRound (fps * (frames.getD i default).1), 0, Interp.LINEAR⟩ : KFP)) ∈
          _animate frames fps ∧
      ((frames.getD i default).2,
        (⟨pyRound (fps * (frames.getD (i + 1) default).1), 0, Interp.LINEAR⟩ : KFP)) ∈
          _animate frames fps) ∧
    (frames ≠ [] → ∀ ev ∈ _animate frames fps, ev.2.interp = Interp.LINEAR) := by
  refine ⟨?_, ?_, ?_⟩
  · intro i hi
    have hne : frames ≠ [] := by
      intro h
      rw [h] at hi
      simp at hi
    exact mem_animate_of_mem_events hne (animateEvents_own fps frames none i hi)
  · intro i hi
    have hne : frames ≠ [] := by
      intro h
      rw [h] at hi
      simp at hi
    have hc := animateEvents_cross fps frames none i hi
    exact ⟨mem_animate_of_mem_events hne hc.1, mem_animate_of_mem_events hne hc.2⟩
  · intro hne ev hev
    unfold _animate at hev
    match frames, hne with
    | (t, f) :: rest, _ =>
      obtain ⟨ev', _, rfl⟩ := List.mem_map.mp hev
      rfl

/-- Witness for C10 on the sequence `[(0, 0), (1, 1)]` at 30 fps: block `1`
gets a `1.0` key at frame 30, the cross-fade `0.0` keys land on blocks `1`
(at frame 0) and `0` (at frame 30), and the list is non-empty so every
event is `LINEAR`. -/
theorem C10_animate_witness :
    (1 < ([(0, 0), (1, 1)] : List (Rat × Nat)).length ∧
      (0 : Nat) + 1 < ([(0, 0), (1, 1)] : List (Rat × Nat)).length ∧
      ([(0, 0), (1, 1)] : List (Rat × Nat)) ≠ []) ∧
    ((((([(0, 0), (1, 1)] : List (Rat × Nat)).getD 1 default).2,
        (⟨pyRound (30 * (([(0, 0), (1, 1)] : List (Rat × Nat)).getD 1 default).1), 1,
          Interp.LINEAR⟩ : KFP)) ∈ _animate [(0, 0), (1, 1)] 30) ∧
      ((((([(0, 0), (1, 1)] : List (Rat × Nat)).getD 1 default).2,
        (⟨pyRound (30 * (([(0, 0), (1, 1)] : List (Rat × Nat)).getD 0 default).1), 0,
          Interp.LINEAR⟩ : KFP)) ∈ _animate [(0, 0), (1, 1)] 30)) ∧
      (∀ ev ∈ _animate ([(0, 0), (1, 1)] : List (Rat × Nat)) 30,
        ev.2.interp = Interp.LINEAR)) :=
  ⟨⟨by decide, by decide, by decide⟩,
   (C10_animate [(0, 0), (1, 1)] 30).1 1 (by decide),
   ((C10_animate [(0, 0), (1, 1)] 30).2.1 0 (by decide)).1,
   (C10_animate [(0, 0), (1, 1)] 30).2.2 (by decide)⟩

/-! ## `_simplify_pydata` lemmas for claim C8 -/

/-- Inserting into the vertex map only ever appends. -/
theorem insertNew_append (vm : List Nat) (v : Nat) :
    ∃ t, insertNew vm v = vm ++ t := by
  unfold insertNew
  split
  · exact ⟨[], by simp⟩
  · exact ⟨[v], rfl⟩

/-- Membership after inserting into the vertex map. -/
theorem mem_insertNew {vm : List Nat} {v x : Nat} :
    x ∈ insertNew vm v ↔ x ∈ vm ∨ x = v := by
  unfold insertNew
  split
  · rename_i hv
    constructor
    · exact Or.inl
    · rintro (h | rfl)
      · exact h
      · exact hv
  · simp

/-- The inserted index is a member of the updated vertex map. -/
theorem self_mem_insertNew (vm : List Nat) (v : Nat) : v ∈ insertNew vm v :=
  mem_insertNew.mpr (Or.inr rfl)

/-- Inserting preserves freedom from duplicates. -/
theorem nodup_insertNew {vm : List Nat} (h : vm.Nodup) (v : Nat) :
    (insertNew vm v).Nodup := by
  unfold insertNew
  split
  · exact h
  · rename_i hv
    simpa [List.nodup_append] using ⟨h, hv⟩

/-- The inner triangle loop only ever appends to the vertex map. -/
theorem procTri_fst_append :
    ∀ (tri : List Nat) (vm : List Nat), ∃ t, (procTri vm tri).1 = vm ++ t
  | [], vm => ⟨[], by simp [procTri]⟩
  | v :: rest, vm => by
    obtain ⟨t1, h1⟩ := insertNew_append vm v
    obtain ⟨t2, h2⟩ := procTri_fst_append rest (insertNew vm v)
    refine ⟨t1 ++ t2, ?_⟩
    simp only [procTri]
    rw [h2, h1, List.append_assoc]

/-- The outer loop only ever appends to the vertex map. -/
theorem procTris_fst_append :
    ∀ (tris : List (List Nat)) (vm : List Nat), ∃ t, (procTris vm tris).1 = vm ++ t
  | [], vm => ⟨[], by simp [procTris]⟩
  | tri :: rest, vm => by
    obtain ⟨t1, h1⟩ := procTri_fst_append tri vm
    obtain ⟨t2, h2⟩ := procTris_fst_append rest (procTri vm tri).1
    refine ⟨t1 ++ t2, ?_⟩
    simp only [procTris]
    rw [h2, h1, List.append_assoc]

/-- Each new index produced for a triangle is the final vertex map's index of
the original vertex index, which is a member of that map. -/
theorem procTri_forall :
    ∀ (tri : List Nat) (vm : List Nat),
      List.Forall₂ (fun v w => v ∈ (procTri vm tri).1 ∧ w = List.indexOf v (procTri vm tri).1)
        tri (procTri vm tri).2
  | [], vm => by simp [procTri]
  | v :: rest, vm => by
    have hself := self_mem_insertNew vm v
    obtain ⟨t, ht⟩ := procTri_fst_append rest (insertNew vm v)
    have ih := procTri_forall rest (insertNew vm v)
    simp only [procTri]
    refine List.forall₂_cons.mpr ⟨⟨?_, ?_⟩, ih⟩
    · rw [ht]
      exact List.mem_append_left _ hself
    · rw [ht, List.indexOf_append_of_mem hself]

/-- Pointwise description of `procTris`: every renumbered entry is the final
vertex map's index of the original entry. -/
theorem procTris_forall :
    ∀ (tris : List (List Nat)) (vm : List Nat),
      List.Forall₂ (fun tri ntri =>
          List.Forall₂ (fun v w =>
            v ∈ (procTris vm tris).1 ∧ w = List.indexOf v (procTris vm tris).1) tri ntri)
        tris (procTris vm tris).2
  | [], vm => by simp [procTris]
  | tri :: rest, vm => by
    obtain ⟨t, ht⟩ := procTris_fst_append rest (procTri vm tri).1
    have hhead := procTri_forall tri vm
    have ih := procTris_forall rest (procTri vm tri).1
    simp only [procTris]
    refine List.forall₂_cons.mpr ⟨?_, ?_⟩
    · refine hhead.imp ?_
      intro v w hw
      refine ⟨?_, ?_⟩
      · rw [ht]
        exact List.mem_append_left _ hw.1
      · rw [ht, List.indexOf_append_of_mem hw.1]
        exact hw.2
    · exact ih

/-- The vertex map computed by the inner loop is a fold of `insertNew`. -/
theorem procTri_fst_foldl :
    ∀ (tri : List Nat) (vm : List Nat), (procTri vm tri).1 = tri.foldl insertNew vm
  | [], vm => by simp [procTri]
  | v :: rest, vm => by
    simp only [procTri, List.foldl_cons]
    exact procTri_fst_foldl rest (insertNew vm v)

/-- The vertex map computed by the outer loop is a fold of `insertNew` over
the concatenation of the triangles. -/
theorem procTris_fst_foldl :
    ∀ (tris : List (List Nat)) (vm : List Nat),
      (procTris vm tris).1 = tris.flatten.foldl insertNew vm
  | [], vm => by simp [procTris]
  | tri :: rest, vm => by
    simp only [procTris, List.flatten_cons, List.foldl_append]
    rw [procTris_fst_foldl rest (procTri vm tri).1, procTri_fst_foldl tri vm]

/-- The fold of `insertNew` preserves freedom from duplicates. -/
theorem nodup_foldl_insertNew :
    ∀ (l : List Nat) (vm : List Nat), vm.Nodup → (l.foldl insertNew vm).Nodup
  | [], vm, h => h
  | v :: rest, vm, h => nodup_foldl_insertNew rest (insertNew vm v) (nodup_insertNew h v)

/-- Main invariant of the first-use vertex map: starting from a map whose
members are exactly the already-processed elements `p` and whose order
agrees with order of first occurrence in `p ++ l`, the fold over `l` yields
a map whose members are exactly those of `p ++ l`, ordered by first
occurrence in `p ++ l`. -/
theorem foldl_insertNew_invariant :
    ∀ (l p vm : List Nat),
      (∀ x, x ∈ vm ↔ x ∈ p) →
      vm.Pairwise (fun a b => List.indexOf a (p ++ l) < List.indexOf b (p ++ l)) →
      (∀ x, x ∈ l.foldl insertNew vm ↔ x ∈ p ++ l) ∧
      (l.foldl insertNew vm).Pairwise
        (fun a b => List.indexOf a (p ++ l) < List.indexOf b (p ++ l))
  | [], p, vm, hmem, hpw => by
    constructor
    · intro x
      rw [List.append_nil]
      exact hmem x
    · exact hpw
  | v :: rest, p, vm, hmem, hpw => by
    have hassoc : p ++ v :: rest = (p ++ [v]) ++ rest := by simp
    have hmem' : ∀ x, x ∈ insertNew vm v ↔ x ∈ p ++ [v] := by
      intro x
      rw [mem_insertNew, List.mem_append, hmem x, List.mem_singleton]
    have hpw' : (insertNew vm v).Pairwise
        (fun a b => List.indexOf a (p ++ v :: rest) < List.indexOf b (p ++ v :: rest)) := by
      unfold insertNew
      by_cases hv : v ∈ vm
      · rw [if_pos hv]
        exact hpw
      · rw [if_neg hv]
        rw [List.pairwise_append]
        refine ⟨hpw, List.pairwise_singleton _ _, ?_⟩
        intro a ha b hb
        rw [List.mem_singleton.mp hb]
        have hap : a ∈ p := (hmem a).mp ha
        have hvp : v ∉ p := fun hc => hv ((hmem v).mpr hc)
        rw [List.indexOf_append_of_mem hap, List.indexOf_append_of_not_mem hvp,
          List.indexOf_cons_self]
        have : List.indexOf a p < p.length := List.indexOf_lt_length.mpr hap
        omega
    have ih := foldl_insertNew_invariant rest (p ++ [v]) (insertNew vm v)
      (by intro x; exact hmem' x)
      (by rw [← hassoc]; exact hpw')
    rw [hassoc]
    exact ⟨fun x => ih.1 x, ih.2⟩

/-- Claim C8: `_simplify_pydata` preserves triangle geometry while
deduplicating vertices.  Pointwise, every renumbered triangle has the same
arity and its new indices are in range of the vertex map and look up the
same vertex; the triangle list keeps its length; the vertex map has no
duplicates, contains exactly the referenced vertex indices, and is ordered
by first use in the flattened triangle list. -/
theorem C8_simplify_pydata {α : Type} [Inhabited α]
    (verts : List α) (tris : List (List Nat))
    (hin : ∀ tri ∈ tris, ∀ v ∈ tri, v < verts.length) :
    List.Forall₂ (fun tri ntri =>
        List.Forall₂ (fun v w =>
          (_simplify_pydata verts tris).1.1.getD w default = verts.getD v default ∧
          w < (_simplify_pydata verts tris).2.length) tri ntri)
      tris (_simplify_pydata verts tris).1.2.2 ∧
    (_simplify_pydata verts tris).1.2.2.length = tris.length ∧
    (_simplify_pydata verts tris).2.Nodup ∧
    (∀ v, v ∈ (_simplify_pydata verts tris).2 ↔ ∃ tri ∈ tris, v ∈ tri) ∧
    (_simplify_pydata verts tris).2.Pairwise
      (fun a b => List.indexOf a tris.flatten < List.indexOf b tris.flatten) := by
  clear hin
  have hverts : (_simplify_pydata verts tris).1.1 =
      (procTris [] tris).1.map (fun old_vert_idx => verts.getD old_vert_idx default) := rfl
  have htris : (_simplify_pydata verts tris).1.2.2 = (procTris [] tris).2 := rfl
  have hvm : (_simplify_pydata verts tris).2 = (procTris [] tris).1 := rfl
  have hinv := foldl_insertNew_invariant tris.flatten [] []
    (by intro x; simp) (List.Pairwise.nil)
  have hfold := procTris_fst_foldl tris []
  have hfa := procTris_forall tris []
  refine ⟨?_, ?_, ?_, ?_, ?_⟩
  · rw [htris]
    refine hfa.imp ?_
    intro tri ntri h
    refine h.imp ?_
    intro v w hw
    obtain ⟨hmemv, rfl⟩ := hw
    have hwlt : List.indexOf v (procTris [] tris).1 < (procTris [] tris).1.length :=
      List.indexOf_lt_length.mpr hmemv
    constructor
    · rw [hverts]
      have hmlt : List.indexOf v (procTris [] tris).1 < ((procTris [] tris).1.map
          (fun old_vert_idx => verts.getD old_vert_idx default)).length := by
        rw [List.length_map]
        exact hwlt
      rw [List.getD_eq_getElem _ _ hmlt, List.getElem_map, List.getElem_indexOf hwlt]
    · rw [hvm]
      exact hwlt
  · rw [htris]
    exact hfa.length_eq.symm
  · rw [hvm, hfold]
    exact nodup_foldl_insertNew tris.flatten [] List.nodup_nil
  · intro v
    rw [hvm, hfold]
    have := hinv.1 v
    rw [List.nil_append] at this
    rw [this, List.mem_flatten]
  · rw [hvm, hfold]
    have := hinv.2
    rw [List.nil_append] at this
    exact this

/-- Witness for C8 on `verts = [10, 20]`, `tris = [[1, 0, 1]]`: the result is
`(([20, 10], [], [[0, 1, 0]]), [1, 0])` and satisfies all five clauses. -/
theorem C8_simplify_pydata_witness :
    (∀ tri ∈ ([[1, 0, 1]] : List (List Nat)), ∀ v ∈ tri, v < ([10, 20] : List Nat).length) ∧
    (List.Forall₂ (fun tri ntri =>
        List.Forall₂ (fun v w =>
          (_simplify_pydata ([10, 20] : List Nat) [[1, 0, 1]]).1.1.getD w default =
            ([10, 20] : List Nat).getD v default ∧
          w < (_simplify_pydata ([10, 20] : List Nat) [[1, 0, 1]]).2.length) tri ntri)
      [[1, 0, 1]] (_simplify_pydata ([10, 20] : List Nat) [[1, 0, 1]]).1.2.2 ∧
    (_simplify_pydata ([10, 20] : List Nat) [[1, 0, 1]]).1.2.2.length =
      ([[1, 0, 1]] : List (List Nat)).length ∧
    (_simplify_pydata ([10, 20] : List Nat) [[1, 0, 1]]).2.Nodup ∧
    (∀ v, v ∈ (_simplify_pydata ([10, 20] : List Nat) [[1, 0, 1]]).2 ↔
      ∃ tri ∈ ([[1, 0, 1]] : List (List Nat)), v ∈ tri) ∧
    (_simplify_pydata ([10, 20] : List Nat) [[1, 0, 1]]).2.Pairwise
      (fun a b => List.indexOf a ([[1, 0, 1]] : List (List Nat)).flatten <
                  List.indexOf b ([[1, 0, 1]] : List (List Nat)).flatten)) :=
  ⟨by decide, C8_simplify_pydata [10, 20] [[1, 0, 1]] (by decide)⟩

/-! ## Structure of successful `add_model` runs -/

/-- Elimination of a successful triangle-set iteration: the initial pose was
readable, the triangle indices were in range, and every field of the
produced sub-object is as computed by the mesh, block, material and UV
steps. -/
theorem processTriSet_ok_elim {c : Ctx} {idx : Nat} {ts : List Nat} {mats : List String}
    {sub : SubObj} {mats' sal : List String}
    (h : processTriSet c idx ts mats = .ok (sub, mats', sal)) :
    ∃ iv, initialPoseVerts c.am = .ok iv ∧
      ts.all (fun t => t < c.am.tris.length) = true ∧
      ((_simplify_pydata iv (ts.map (fun t => c.am.tris.getD t []))).2).all
        (fun old_vert_idx => old_vert_idx < iv.length) = true ∧
      sub.name = c.obj_name ++ "_triset" ++ toString idx ∧
      sub.parent = c.obj_name ∧
      sub.meshVerts = (_simplify_pydata iv (ts.map (fun t => c.am.tris.getD t []))).1.1 ∧
      sub.meshTris = (_simplify_pydata iv (ts.map (fun t => c.am.tris.getD t []))).1.2.2 ∧
      sub.vert_map = (_simplify_pydata iv (ts.map (fun t => c.am.tris.getD t []))).2 ∧
      tsBlocks c sub.vert_map = .ok (sub.blocks, sub.animEvents) ∧
      tsMaterial c idx mats = .ok (sub.matName, sub.matCreated, mats', sal) ∧
      sub.uvs = _set_uvs c.am (sub.meshTris.map (fun tri => tri.map (fun _ => ()))) ts := by
  simp only [processTriSet] at h
  split at h
  · exact absurd h (by simp)
  · rename_i iv hiv
    split at h
    · rename_i hts
      split at h
      · rename_i hcov
        split at h
        · exact absurd h (by simp)
        · rename_i br hbr
          split at h
          · exact absurd h (by simp)
          · rename_i mr hmr
            have htup := Except.ok.inj h
            rw [Prod.mk.injEq, Prod.mk.injEq] at htup
            obtain ⟨hsub, hmats, hsal⟩ := htup
            subst hmats hsal hsub
            exact ⟨iv, hiv, hts, hcov, rfl, rfl, rfl, rfl, rfl, hbr, hmr, rfl⟩
      · exact absurd h (by simp)
    · exact absurd h (by simp)

/-- Elimination of a successful triangle-set loop: the result has one
sub-object per triangle set appended after the incoming accumulator, and
each appended sub-object comes from a successful `processTriSet` at the
corresponding index. -/
theorem addModelGo_ok_elim (c : Ctx) :
    ∀ (sets : List (List Nat)) (idx : Nat) (mats : List String) (subs : List SubObj)
      (sal : List String) (out : List SubObj × List String × List String),
      addModelGo c idx sets mats subs sal = .ok out →
      out.1.length = subs.length + sets.length ∧
      (∀ j, j < subs.length → out.1.getD j default = subs.getD j default) ∧
      (∀ j, j < sets.length → ∃ matsJ matsJ' salJ,
        processTriSet c (idx + j) (sets.getD j []) matsJ =
          .ok (out.1.getD (subs.length + j) default, matsJ', salJ))
  | [], idx, mats, subs, sal, out, h => by
    have h' : Except.ok (ε := AddModelErr) (subs, mats, sal) = Except.ok out := h
    obtain rfl : (subs, mats, sal) = out := Except.ok.inj h'
    refine ⟨by simp, fun j _ => rfl, fun j hj => by simp at hj⟩
  | ts :: rest, idx, mats, subs, sal, out, h => by
    simp only [addModelGo] at h
    split at h
    · exact absurd h (by simp)
    · rename_i r hr
      have ih := addModelGo_ok_elim c rest (idx + 1) r.2.1 (subs ++ [r.1]) (sal ++ r.2.2) out h
      refine ⟨by rw [ih.1]; simp; omega, ?_, ?_⟩
      · intro j hj
        rw [ih.2.1 j (by simp; omega)]
        rw [List.getD_eq_getElem _ _ (by simp; omega), List.getD_eq_getElem _ _ hj]
        exact List.getElem_append_left hj
      · intro j hj
        match j with
        | 0 =>
          refine ⟨mats, r.2.1, r.2.2, ?_⟩
          have hpos : out.1.getD (subs.length + 0) default = r.1 := by
            rw [Nat.add_zero, ih.2.1 subs.length (by simp)]
            rw [List.getD_eq_getElem _ _ (by simp)]
            simp
          rw [hpos]
          simpa using hr
        | j + 1 =>
          obtain ⟨mJ, mJ', sJ, hJ⟩ := ih.2.2 j (by simpa using hj)
          refine ⟨mJ, mJ', sJ, ?_⟩
          have h1 : idx + (j + 1) = idx + 1 + j := by omega
          have h2 : subs.length + (j + 1) = (subs ++ [r.1]).length + j := by simp; omega
          rw [h1, h2]
          simpa using hJ

/-- Specialisation of the loop elimination to `add_model`'s initial call
(empty accumulators, starting index `0`). -/
theorem addModelGo_ok_elim0 (c : Ctx) (sets : List (List Nat)) (mats : List String)
    (out : List SubObj × List String × List String)
    (h : addModelGo c 0 sets mats [] [] = .ok out) :
    out.1.length = sets.length ∧
    ∀ j, j < sets.length → ∃ matsJ matsJ' salJ,
      processTriSet c j (sets.getD j []) matsJ = .ok (out.1.getD j default, matsJ', salJ) := by
  have hg := addModelGo_ok_elim c sets 0 mats [] [] out h
  constructor
  · simpa using hg.1
  · intro j hj
    obtain ⟨mJ, mJ', sJ, hJ⟩ := hg.2.2 j hj
    exact ⟨mJ, mJ', sJ, by simpa using hJ⟩

/-- Claim C5 (helper): a successful `add_model` has a non-empty sub-object
list, hence at least one triangle set. -/
theorem add_model_ok_subs_ne {am pal mdl_name obj_name frames skin_idx final_time mdls_cfg
    static fps mats0 r}
    (h : add_model am pal mdl_name obj_name frames skin_idx final_time mdls_cfg
        static fps mats0 = .ok r) :
    r.subs ≠ [] := by
  obtain ⟨-, out, -, lastSub, hlast, rfl⟩ := add_model_ok_elim h
  intro hc
  have hc' : out.1 = [] := hc
  rw [hc'] at hlast
  exact Option.noConfusion hlast

/-- Claim C5: every successful `add_model` call creates one mesh object per
disjoint triangle set, named `obj_name_trisetI` for the `I`-th set, each
parented to the newly created empty named `obj_name`, with mesh data built
by `_simplify_pydata` from exactly the triangles of its own set. -/
theorem C5_mesh_per_triset (am : AliasMdl) (pal : List (List Rat))
    (mdl_name obj_name : String) (frames : List (Rat × Nat)) (skin_idx : Nat)
    (final_time : Rat) (mdls_cfg : MdlsCfg) (static : Bool) (fps : Rat)
    (mats0 : List String) (r : AddModelResult)
    (h : add_model am pal mdl_name obj_name frames skin_idx final_time mdls_cfg
        static fps mats0 = .ok r) :
    r.objName = obj_name ∧ r.objIsEmpty = true ∧
    r.subs.length = am.disjoint_tri_sets.length ∧
    ∃ iv, initialPoseVerts am = .ok iv ∧
      ∀ i, i < am.disjoint_tri_sets.length →
        (r.subs.getD i default).name = obj_name ++ "_triset" ++ toString i ∧
        (r.subs.getD i default).parent = obj_name ∧
        (r.subs.getD i default).meshVerts =
          (_simplify_pydata iv
            ((am.disjoint_tri_sets.getD i []).map (fun t => am.tris.getD t []))).1.1 ∧
        (r.subs.getD i default).meshTris =
          (_simplify_pydata iv
            ((am.disjoint_tri_sets.getD i []).map (fun t => am.tris.getD t []))).1.2.2 := by
  have hne := add_model_ok_subs_ne h
  obtain ⟨hpal, out, hgo, lastSub, hlast, rfl⟩ := add_model_ok_elim h
  have hg := addModelGo_ok_elim0 _ _ _ _ hgo
  have hlen : out.1.length = am.disjoint_tri_sets.length := hg.1
  have hsets_ne : am.disjoint_tri_sets.length ≠ 0 := by
    intro hc
    exact hne (List.eq_nil_of_length_eq_zero (by rw [hlen, hc]))
  obtain ⟨m0, m0', s0, h0⟩ := hg.2 0 (Nat.pos_of_ne_zero hsets_ne)
  obtain ⟨iv, hiv, -⟩ := processTriSet_ok_elim h0
  refine ⟨rfl, rfl, hlen, iv, hiv, ?_⟩
  intro i hi
  obtain ⟨mI, mI', sI, hI⟩ := hg.2 i hi
  obtain ⟨ivI, hivI, -, -, hname, hparent, hmv, hmt, -⟩ := processTriSet_ok_elim hI
  obtain rfl : ivI = iv := by
    rw [hiv] at hivI
    exact (Except.ok.inj hivI).symm
  exact ⟨hname, hparent, hmv, hmt⟩

/-- Witness for C5: the minimal model's run creates exactly one sub-object
`o_triset0`, parented to `o`, with the simplified mesh of triangle set
`[0]`. -/
theorem C5_mesh_per_triset_witness :
    (add_model wAm wPal "m" "o" [(0, 0)] 0 0 wCfgF false 30 [] =
      .ok (wRun.toOption.getD default)) ∧
    ((wRun.toOption.getD default).objName = "o" ∧
     (wRun.toOption.getD default).objIsEmpty = true ∧
     (wRun.toOption.getD default).subs.length = wAm.disjoint_tri_sets.length ∧
     ∃ iv, initialPoseVerts wAm = .ok iv ∧
       ∀ i, i < wAm.disjoint_tri_sets.length →
         ((wRun.toOption.getD default).subs.getD i default).name =
            "o" ++ "_triset" ++ toString i ∧
         ((wRun.toOption.getD default).subs.getD i default).parent = "o" ∧
         ((wRun.toOption.getD default).subs.getD i default).meshVerts =
           (_simplify_pydata iv
             ((wAm.disjoint_tri_sets.getD i []).map (fun t => wAm.tris.getD t []))).1.1 ∧
         ((wRun.toOption.getD default).subs.getD i default).meshTris =
           (_simplify_pydata iv
             ((wAm.disjoint_tri_sets.getD i []).map (fun t => wAm.tris.getD t []))).1.2.2) :=
  ⟨rfl,
   C5_mesh_per_triset wAm wPal "m" "o" [(0, 0)] 0 0 wCfgF false 30 []
     (wRun.toOption.getD default) rfl⟩

/-! ## Shape-key blocks of non-static runs (claim C2) -/

/-- Elimination of the non-static branch of the block step: the per-frame
loop succeeded, every requested frame number is a valid block key, and the
events are those of `_animate`. -/
theorem tsBlocks_nonstatic_ok_elim {c : Ctx} {vm : List Nat}
    {blocks : List (Nat × Block)} {events : List (Nat × KFP)}
    (hst : c.static = false) (h : tsBlocks c vm = .ok (blocks, events)) :
    mkSingleBlocksAux vm 0 c.am.frames = .ok blocks ∧
    c.frames.all (fun p => p.2 < c.am.frames.length) = true ∧
    events = _animate c.frames c.fps := by
  rw [tsBlocks, if_pos hst] at h
  split at h
  · exact absurd h (by simp)
  · rename_i bs hbs
    split at h
    · rename_i hall
      have htup := Except.ok.inj h
      rw [Prod.mk.injEq] at htup
      obtain ⟨hb, he⟩ := htup
      subst hb
      exact ⟨hbs, hall, he.symm⟩
    · exact absurd h (by simp)

/-- Elimination of a successful non-static block loop: the keys enumerate
the frames starting at `n`, and each block is created from the matching
frame's name and vertex data through the vertex map. -/
theorem mkSingleBlocksAux_ok_elim :
    ∀ (fl : List ModelFrame) (vm : List Nat) (n : Nat) (bs : List (Nat × Block)),
      mkSingleBlocksAux vm n fl = .ok bs →
      bs.map Prod.fst = List.range' n fl.length ∧
      ∀ i, i < fl.length →
        bs.getD i (0, default) =
          (n + i, Block.mk (fl.getD i default).frame.name
            (vm.map (fun v => (fl.getD i default).frame.frame_verts.getD v default)))
  | [], vm, n, bs, h => by
    have h' : Except.ok (ε := AddModelErr) [] = Except.ok bs := h
    obtain rfl : ([] : List (Nat × Block)) = bs := Except.ok.inj h'
    exact ⟨by simp [List.range'], fun i hi => by simp at hi⟩
  | f :: rest, vm, n, bs, h => by
    rw [mkSingleBlocksAux] at h
    split at h
    · exact absurd h (by simp)
    · rename_i hsingle
      split at h
      · exact absurd h (by simp)
      · rename_i b hb
        split at h
        · exact absurd h (by simp)
        · rename_i bs' hbs'
          obtain rfl : (n, b) :: bs' = bs := Except.ok.inj h
          have ih := mkSingleBlocksAux_ok_elim rest vm (n + 1) bs' hbs'
          have hbval : b = Block.mk f.frame.name
              (vm.map (fun v => f.frame.frame_verts.getD v default)) := by
            rw [_create_block] at hb
            split at hb
            · exact (Option.some.inj hb).symm
            · exact absurd hb (by simp)
          constructor
          · simp only [List.map_cons, List.length_cons, List.range'_succ, ih.1]
          · intro i hi
            match i with
            | 0 => simp [hbval]
            | i + 1 =>
              have := ih.2 i (by simpa using hi)
              simp only [List.getD_cons_succ, this]
              have : n + (i + 1) = n + 1 + i := by omega
              rw [this]

/-- Every keyframe event of `_animate` is keyed by a frame number referenced
in the sequence. -/
theorem animate_keys {l : List (Rat × Nat)} {fps : Rat} {ev : Nat × KFP}
    (h : ev ∈ _animate l fps) : ev.1 ∈ l.map Prod.snd := by
  unfold _animate at h
  match l, h with
  | [], h => simp [animateEvents] at h
  | (t, f) :: rest, h =>
    obtain ⟨ev', hev', rfl⟩ := List.mem_map.mp h
    have := animateEvents_keys fps ((t, f) :: rest) none ev' hev'
    rcases this with hm | ⟨p, hp, -⟩
    · exact hm
    · exact absurd hp (by simp)

/-- Claim C2 (amended): in every successful non-static `add_model` run, each
sub-object's block mapping has exactly one entry per index in
`range(len(am.frames))`, each block named after its frame and filled from
that frame's vertex data through the vertex map; the inserted weight
keyframes are exactly those of `_animate`, so every referenced frame number
receives a keyframe and frame numbers never referenced receive none. -/
theorem C2_blocks_per_frame (am : AliasMdl) (pal : List (List Rat))
    (mdl_name obj_name : String) (frames : List (Rat × Nat)) (skin_idx : Nat)
    (final_time : Rat) (mdls_cfg : MdlsCfg) (fps : Rat)
    (mats0 : List String) (r : AddModelResult)
    (h : add_model am pal mdl_name obj_name frames skin_idx final_time mdls_cfg
        false fps mats0 = .ok r) :
    ∀ sub ∈ r.subs,
      sub.blocks.map Prod.fst = List.range am.frames.length ∧
      (∀ i, i < am.frames.length →
        sub.blocks.getD i (0, default) =
          (i, Block.mk (am.frames.getD i default).frame.name
            (sub.vert_map.map
              (fun v => (am.frames.getD i default).frame.frame_verts.getD v default)))) ∧
      sub.animEvents = _animate frames fps ∧
      (∀ i, i < frames.length →
        ((frames.getD i default).2,
          (⟨pyRound (fps * (frames.getD i default).1), 1, Interp.LINEAR⟩ : KFP)) ∈
          sub.animEvents) ∧
      (∀ k, k ∉ frames.map Prod.snd → ∀ ev ∈ sub.animEvents, ev.1 ≠ k) := by
  intro sub hsub
  obtain ⟨hpal, out, hgo, lastSub, hlast, rfl⟩ := add_model_ok_elim h
  have hg := addModelGo_ok_elim0 _ _ _ _ hgo
  have hsub' : sub ∈ out.1 := hsub
  obtain ⟨j, hj, hjs⟩ := List.getElem_of_mem hsub'
  have hjD : out.1.getD j default = sub := by
    rw [List.getD_eq_getElem _ _ hj]
    exact hjs
  obtain ⟨mJ, mJ', sJ, hJ⟩ := hg.2 j (by rw [← hg.1]; exact hj)
  rw [hjD] at hJ
  obtain ⟨iv, -, -, -, -, -, -, -, -, hblocks, -, -⟩ := processTriSet_ok_elim hJ
  have hb := tsBlocks_nonstatic_ok_elim rfl hblocks
  have hmk := mkSingleBlocksAux_ok_elim _ _ _ _ hb.1
  refine ⟨?_, ?_, hb.2.2, ?_, ?_⟩
  · rw [hmk.1, List.range_eq_range']
  · intro i hi
    rw [hmk.2 i hi, Nat.zero_add]
  · intro i hi
    rw [hb.2.2]
    have hne : frames ≠ [] := by
      intro hc
      rw [hc] at hi
      simp at hi
    exact mem_animate_of_mem_events hne (animateEvents_own fps frames none i hi)
  · intro k hk ev hev
    rw [hb.2.2] at hev
    intro hc
    exact hk (hc ▸ animate_keys hev)

/-- Witness for C2 (amended claim) on the minimal model's run: one block,
keyed `0`, named `frame1`, and the keyframes of `_animate [(0, 0)] 30`. -/
theorem C2_blocks_per_frame_witness :
    (add_model wAm wPal "m" "o" [(0, 0)] 0 0 wCfgF false 30 [] =
      .ok (wRun.toOption.getD default)) ∧
    (∀ sub ∈ (wRun.toOption.getD default).subs,
      sub.blocks.map Prod.fst = List.range wAm.frames.length ∧
      (∀ i, i < wAm.frames.length →
        sub.blocks.getD i (0, default) =
          (i, Block.mk (wAm.frames.getD i default).frame.name
            (sub.vert_map.map
              (fun v => (wAm.frames.getD i default).frame.frame_verts.getD v default)))) ∧
      sub.animEvents = _animate [(0, 0)] 30 ∧
      (∀ i, i < ([(0, 0)] : List (Rat × Nat)).length →
        ((([(0, 0)] : List (Rat × Nat)).getD i default).2,
          (⟨pyRound (30 * (([(0, 0)] : List (Rat × Nat)).getD i default).1), 1,
            Interp.LINEAR⟩ : KFP)) ∈ sub.animEvents) ∧
      (∀ k, k ∉ ([(0, 0)] : List (Rat × Nat)).map Prod.snd →
        ∀ ev ∈ sub.animEvents, ev.1 ≠ k)) :=
  ⟨rfl,
   C2_blocks_per_frame wAm wPal "m" "o" [(0, 0)] 0 0 wCfgF 30 []
     (wRun.toOption.getD default) rfl⟩

/-- Counterexample to C2 as stated: a successful non-static run with an
empty `frames` sequence creates the per-frame shape-key block (for frame
`0`) but inserts no keyframes at all, so not every block holds a weight
curve. -/
theorem C2_counterexample :
    wRunNoFrames.isOk = true ∧
    (wRunNoFrames.toOption.getD default).subs.length = 1 ∧
    ((wRunNoFrames.toOption.getD default).subs.getD 0 default).blocks.map Prod.fst = [0] ∧
    ((wRunNoFrames.toOption.getD default).subs.getD 0 default).animEvents = [] := by
  refine ⟨rfl, rfl, rfl, rfl⟩

/-! ## Material sharing (claim C3) -/

/-- The material step never removes names from the material collection. -/
theorem tsMaterial_mats_mono {c : Ctx} {idx : Nat} {mats : List String}
    {mr : String × Bool × List String × List String}
    (h : tsMaterial c idx mats = .ok mr) : ∀ x ∈ mats, x ∈ mr.2.2.1 := by
  rw [tsMaterial] at h
  split at h
  all_goals
    split at h
    · obtain rfl := Except.ok.inj h
      exact fun x hx => hx
    · split at h
      · obtain rfl := Except.ok.inj h
        exact fun x hx => List.mem_append_left _ hx
      · exact absurd h (by simp)

/-- With `sample_as_light` off, a successful material step uses the shared
base name and leaves it in the resulting collection. -/
theorem tsMaterial_sal_false_name {c : Ctx} {idx : Nat} {mats : List String}
    {mr : String × Bool × List String × List String}
    (hsal : c.mdl_cfg.sample_as_light = false) (h : tsMaterial c idx mats = .ok mr) :
    mr.1 = c.mdl_name ++ "_skin" ++ toString c.skin_idx ∧ mr.1 ∈ mr.2.2.1 := by
  rw [tsMaterial] at h
  rw [hsal] at h
  simp only [Bool.false_eq_true, if_false] at h
  split at h
  · rename_i hmem
    obtain rfl := Except.ok.inj h
    exact ⟨rfl, hmem⟩
  · split at h
    · obtain rfl := Except.ok.inj h
      exact ⟨rfl, List.mem_append_right _ (by simp)⟩
    · exact absurd h (by simp)

/-- With `sample_as_light` off and the base material already present, the
material step reuses it: nothing is created and the collection is
unchanged. -/
theorem tsMaterial_reuse {c : Ctx} {idx : Nat} {mats : List String}
    (hsal : c.mdl_cfg.sample_as_light = false)
    (hmem : c.mdl_name ++ "_skin" ++ toString c.skin_idx ∈ mats) :
    tsMaterial c idx mats =
      .ok (c.mdl_name ++ "_skin" ++ toString c.skin_idx, false, mats, []) := by
  rw [tsMaterial, hsal]
  simp only [Bool.false_eq_true, if_false]
  rw [if_pos hmem]

/-- The triangle-set loop never removes names from the material
collection. -/
theorem addModelGo_mats_mono (c : Ctx) :
    ∀ (sets : List (List Nat)) (idx : Nat) (mats : List String) (subs : List SubObj)
      (sal : List String) (out : List SubObj × List String × List String),
      addModelGo c idx sets mats subs sal = .ok out → ∀ x ∈ mats, x ∈ out.2.1
  | [], idx, mats, subs, sal, out, h => by
    have h' : Except.ok (ε := AddModelErr) (subs, mats, sal) = Except.ok out := h
    obtain rfl := Except.ok.inj h'
    exact fun x hx => hx
  | ts :: rest, idx, mats, subs, sal, out, h => by
    simp only [addModelGo] at h
    split at h
    · exact absurd h (by simp)
    · rename_i r hr
      intro x hx
      obtain ⟨-, -, -, -, -, -, -, -, -, -, hmat, -⟩ := processTriSet_ok_elim
        (show processTriSet c idx ts mats = .ok (r.1, r.2.1, r.2.2) by simpa using hr)
      exact addModelGo_mats_mono c rest (idx + 1) r.2.1 (subs ++ [r.1]) (sal ++ r.2.2) out h x
        (tsMaterial_mats_mono hmat x hx)

/-- With `sample_as_light` off, a successful loop over at least one triangle
set leaves the shared base material name in the final collection. -/
theorem addModelGo_ensures_base {c : Ctx} {ts : List Nat} {rest : List (List Nat)}
    {idx : Nat} {mats : List String} {subs : List SubObj} {sal : List String}
    {out : List SubObj × List String × List String}
    (hsal : c.mdl_cfg.sample_as_light = false)
    (h : addModelGo c idx (ts :: rest) mats subs sal = .ok out) :
    c.mdl_name ++ "_skin" ++ toString c.skin_idx ∈ out.2.1 := by
  simp only [addModelGo] at h
  split at h
  · exact absurd h (by simp)
  · rename_i r hr
    obtain ⟨-, -, -, -, -, -, -, -, -, -, hmat, -⟩ := processTriSet_ok_elim
      (show processTriSet c idx ts mats = .ok (r.1, r.2.1, r.2.2) by simpa using hr)
    have hn := tsMaterial_sal_false_name hsal hmat
    have hbase : c.mdl_name ++ "_skin" ++ toString c.skin_idx ∈ r.2.1 := by
      rw [← hn.1]
      exact hn.2
    exact addModelGo_mats_mono c rest (idx + 1) r.2.1 (subs ++ [r.1]) (sal ++ r.2.2) out h _ hbase

/-- With `sample_as_light` off and the base material already in the
collection, the loop reuses it everywhere: the collection is unchanged and
every newly produced sub-object records the base material, not created. -/
theorem addModelGo_reuse (c : Ctx) (hsal : c.mdl_cfg.sample_as_light = false) :
    ∀ (sets : List (List Nat)) (idx : Nat) (mats : List String) (subs : List SubObj)
      (sal : List String) (out : List SubObj × List String × List String),
      c.mdl_name ++ "_skin" ++ toString c.skin_idx ∈ mats →
      addModelGo c idx sets mats subs sal = .ok out →
      out.2.1 = mats ∧
      ∀ s ∈ out.1, s ∈ subs ∨
        (s.matName = c.mdl_name ++ "_skin" ++ toString c.skin_idx ∧ s.matCreated = false)
  | [], idx, mats, subs, sal, out, hmem, h => by
    have h' : Except.ok (ε := AddModelErr) (subs, mats, sal) = Except.ok out := h
    obtain rfl := Except.ok.inj h'
    exact ⟨rfl, fun s hs => Or.inl hs⟩
  | ts :: rest, idx, mats, subs, sal, out, hmem, h => by
    simp only [addModelGo] at h
    split at h
    · exact absurd h (by simp)
    · rename_i r hr
      obtain ⟨-, -, -, -, -, -, -, -, -, -, hmat, -⟩ := processTriSet_ok_elim
        (show processTriSet c idx ts mats = .ok (r.1, r.2.1, r.2.2) by simpa using hr)
      rw [tsMaterial_reuse hsal hmem] at hmat
      have htup := Except.ok.inj hmat
      rw [Prod.mk.injEq, Prod.mk.injEq, Prod.mk.injEq] at htup
      obtain ⟨hname, hcreated, hmats, -⟩ := htup
      rw [← hmats] at h
      have ih := addModelGo_reuse c hsal rest (idx + 1) mats (subs ++ [r.1])
        (sal ++ r.2.2) out hmem h
      refine ⟨ih.1, ?_⟩
      intro s hs
      rcases ih.2 s hs with hin | hprops
      · rcases List.mem_append.mp hin with hin' | hone
        · exact Or.inl hin'
        · obtain rfl : s = r.1 := List.mem_singleton.mp hone
          exact Or.inr ⟨hname.symm, hcreated.symm⟩
      · exact Or.inr hprops

/-- Claim C3 (amended): two `add_model` calls with the same `mdl_name` and
`skin_idx` share the material named `mdl_name_skinN` — regardless of the
other parameters — provided the effective per-model configuration of both
calls has `sample_as_light` off: the second call creates no material, every
sub-object of the second call records the shared name as not created, and
the material collection is unchanged. -/
theorem C3_material_shared (am1 am2 : AliasMdl) (pal1 pal2 : List (List Rat))
    (mdl_name : String) (obj1 obj2 : String) (frames1 frames2 : List (Rat × Nat))
    (skin_idx : Nat) (ft1 ft2 : Rat) (cfg1 cfg2 : MdlsCfg) (st1 st2 : Bool)
    (fps1 fps2 : Rat) (mats0 : List String) (r1 r2 : AddModelResult)
    (hsal1 : (_get_model_config mdl_name cfg1).sample_as_light = false)
    (hsal2 : (_get_model_config mdl_name cfg2).sample_as_light = false)
    (h1 : add_model am1 pal1 mdl_name obj1 frames1 skin_idx ft1 cfg1 st1 fps1 mats0 = .ok r1)
    (h2 : add_model am2 pal2 mdl_name obj2 frames2 skin_idx ft2 cfg2 st2 fps2 r1.mats = .ok r2) :
    (∀ s ∈ r2.subs,
      s.matName = mdl_name ++ "_skin" ++ toString skin_idx ∧ s.matCreated = false) ∧
    r2.mats = r1.mats := by
  obtain ⟨-, out1, hgo1, lastSub1, -, rfl⟩ := add_model_ok_elim h1
  have hbase : mdl_name ++ "_skin" ++ toString skin_idx ∈ out1.2.1 := by
    rcases hsets1 : am1.disjoint_tri_sets with _ | ⟨ts, rest⟩
    · rw [hsets1] at hgo1
      have h' : Except.ok (ε := AddModelErr) (([] : List SubObj), mats0, ([] : List String)) =
          Except.ok out1 := hgo1
      obtain rfl := Except.ok.inj h'
      exact absurd (add_model_ok_subs_ne h1) (by simp [add_model_ok_elim])
    · rw [hsets1] at hgo1
      exact addModelGo_ensures_base hsal1 hgo1
  obtain ⟨-, out2, hgo2, lastSub2, -, rfl⟩ := add_model_ok_elim h2
  have hr := addModelGo_reuse _ hsal2 _ _ _ _ _ _ hbase hgo2
  refine ⟨?_, hr.1⟩
  intro s hs
  rcases hr.2 s hs with hin | hprops
  · simp at hin
  · exact hprops

/-- Witness for C3 (amended): two `sample_as_light`-off runs over the same
model name and skin; the second reuses `m_skin0` and creates nothing. -/
theorem C3_material_shared_witness :
    ((_get_model_config "m" wCfgF).sample_as_light = false ∧
      add_model wAm wPal "m" "a" [(0, 0)] 0 0 wCfgF false 30 [] =
        .ok (wRunMat1.toOption.getD default) ∧
      add_model wAm wPal "m" "b" [(0, 0)] 0 0 wCfgF false 30
          (wRunMat1.toOption.getD default).mats =
        .ok (wRunMat2.toOption.getD default)) ∧
    (∀ s ∈ (wRunMat2.toOption.getD default).subs,
      s.matName = "m" ++ "_skin" ++ toString 0 ∧ s.matCreated = false) ∧
    (wRunMat2.toOption.getD default).mats = (wRunMat1.toOption.getD default).mats :=
  ⟨⟨rfl, rfl, rfl⟩,
   C3_material_shared wAm wAm wPal wPal "m" "a" "b" [(0, 0)] [(0, 0)] 0 0 0
     wCfgF wCfgF false false 30 30 [] (wRunMat1.toOption.getD default)
     (wRunMat2.toOption.getD default) rfl rfl rfl rfl⟩

/-- Counterexample to C3 as stated: with a per-model configuration that sets
`sample_as_light`, the material name gains an object/triangle-set suffix,
so a second call with the same `mdl_name` and `skin_idx` (but another
object name) does not reuse the material named `m_skin0` — it creates a
fresh one. -/
theorem C3_counterexample :
    wRunSal1.isOk = true ∧ wRunSal2.isOk = true ∧
    ((wRunSal2.toOption.getD default).subs.getD 0 default).matCreated = true ∧
    ((wRunSal2.toOption.getD default).subs.getD 0 default).matName ≠ "m_skin0" ∧
    ((wRunSal2.toOption.getD default).subs.getD 0 default).matName =
      "m_skin0_b_triset0_fullbright" := by
  refine ⟨rfl, rfl, rfl, ?_, rfl⟩
  decide

/-! ## Error analysis of the precondition checks (claim C1) -/

/-- Reading the initial pose can only fail with an `IndexError`. -/
theorem initialPoseVerts_error {am : AliasMdl} {e : AddModelErr}
    (h : initialPoseVerts am = .error e) : e = AddModelErr.indexError := by
  rw [initialPoseVerts] at h
  split at h
  · exact (Except.error.inj h).symm
  · split at h
    · exact absurd h (by simp)
    · split at h
      · exact (Except.error.inj h).symm
      · exact absurd h (by simp)

/-- The static block loop can only fail with an `IndexError`. -/
theorem mkGroupBlocksAux_error :
    ∀ (sfl : List SimpleFrame) (vm : List Nat) (n : Nat) (e : AddModelErr),
      mkGroupBlocksAux vm n sfl = .error e → e = AddModelErr.indexError
  | [], vm, n, e, h => absurd h (by simp [mkGroupBlocksAux])
  | sf :: rest, vm, n, e, h => by
    rw [mkGroupBlocksAux] at h
    split at h
    · exact (Except.error.inj h).symm
    · split at h
      · rename_i e' he'
        obtain rfl : e' = e := Except.error.inj h
        exact mkGroupBlocksAux_error rest vm (n + 1) _ he'
      · exact absurd h (by simp)

/-- The static loop-schedule computation never fails with a precondition
check error. -/
theorem staticLoopFrames_error {gf : ModelFrame} {ft : Rat} {e : AddModelErr}
    (h : staticLoopFrames gf ft = .error e) : e.isCheckError = false := by
  simp only [staticLoopFrames] at h
  split at h
  · obtain rfl : AddModelErr.indexError = e := Except.error.inj h
    rfl
  · split at h
    · obtain rfl : AddModelErr.zeroDivisionError = e := Except.error.inj h
      rfl
    · split at h
      · obtain rfl : AddModelErr.valueError = e := Except.error.inj h
        rfl
      · split at h
        · obtain rfl : AddModelErr.indexError = e := Except.error.inj h
          rfl
        · split at h
          · obtain rfl : AddModelErr.broadcastError = e := Except.error.inj h
            rfl
          · exact absurd h (by simp)

/-- The material step can only fail with an `IndexError`. -/
theorem tsMaterial_error {c : Ctx} {idx : Nat} {mats : List String} {e : AddModelErr}
    (h : tsMaterial c idx mats = .error e) : e = AddModelErr.indexError := by
  rw [tsMaterial] at h
  split at h
  all_goals
    split at h
    · exact absurd h (by simp)
    · split at h
      · exact absurd h (by simp)
      · exact (Except.error.inj h).symm

/-- If the non-static block loop fails with a check error, some frame has a
non-`SINGLE` frame type. -/
theorem mkSingleBlocksAux_error_check :
    ∀ (fl : List ModelFrame) (vm : List Nat) (n : Nat) (e : AddModelErr),
      mkSingleBlocksAux vm n fl = .error e → e.isCheckError = true →
      ∃ f ∈ fl, f.frame_type ≠ FrameType.SINGLE
  | [], vm, n, e, h, _ => absurd h (by simp [mkSingleBlocksAux])
  | f :: rest, vm, n, e, h, hc => by
    rw [mkSingleBlocksAux] at h
    split at h
    · rename_i hft
      exact ⟨f, by simp, hft⟩
    · split at h
      · obtain rfl : AddModelErr.indexError = e := Except.error.inj h
        simp [AddModelErr.isCheckError] at hc
      · split at h
        · rename_i e' he'
          obtain rfl : e' = e := Except.error.inj h
          obtain ⟨g, hg, hgt⟩ := mkSingleBlocksAux_error_check rest vm (n + 1) _ he' hc
          exact ⟨g, by simp [hg], hgt⟩
        · exact absurd h (by simp)

/-- If some frame has a non-`SINGLE` frame type (and the blocks for the
`SINGLE` frames before it can be created), the non-static block loop fails
with the frame-type check error. -/
theorem mkSingleBlocksAux_complete :
    ∀ (fl : List ModelFrame) (vm : List Nat) (n : Nat),
      (∃ f ∈ fl, f.frame_type ≠ FrameType.SINGLE) →
      (∀ f ∈ fl, f.frame_type = FrameType.SINGLE →
        vm.all (fun v => v < f.frame.frame_verts.length) = true) →
      ∃ ft, mkSingleBlocksAux vm n fl = .error (.frameTypeNonStatic ft)
  | [], vm, n, hex, _ => by simp at hex
  | f :: rest, vm, n, hex, hverts => by
    rw [mkSingleBlocksAux]
    by_cases hft : f.frame_type = FrameType.SINGLE
    · rw [if_neg (not_not_intro hft)]
      have hcb : _create_block f.frame.name f.frame.frame_verts vm =
          some ⟨f.frame.name, vm.map (fun v => f.frame.frame_verts.getD v default)⟩ := by
        rw [_create_block, if_pos (hverts f (by simp) hft)]
      rw [hcb]
      have hex' : ∃ g ∈ rest, g.frame_type ≠ FrameType.SINGLE := by
        rcases hex with ⟨g, hg, hgt⟩
        rcases List.mem_cons.mp hg with rfl | hg'
        · exact absurd hft hgt
        · exact ⟨g, hg', hgt⟩
      obtain ⟨ft, hrec⟩ := mkSingleBlocksAux_complete rest vm (n + 1) hex'
        (fun g hg hgt => hverts g (by simp [hg]) hgt)
      rw [hrec]
      exact ⟨ft, rfl⟩
    · rw [if_pos hft]
      exact ⟨f.frame_type, rfl⟩

/-- Soundness of the check errors for the block step: a check error in
non-static mode means some frame is non-`SINGLE`; in static mode it means
the frame count is not one or the selected frame is not a `GROUP`. -/
theorem tsBlocks_error_check {c : Ctx} {vm : List Nat} {e : AddModelErr}
    (h : tsBlocks c vm = .error e) (hc : e.isCheckError = true) :
    (c.static = false → ∃ f ∈ c.am.frames, f.frame_type ≠ FrameType.SINGLE) ∧
    (c.static = true → c.frames.length ≠ 1 ∨
      (c.am.frames.getD (c.frames.headD (0, 0)).2 default).frame_type ≠ FrameType.GROUP) := by
  by_cases hst : c.static = false
  · simp only [tsBlocks, if_pos hst] at h
    constructor
    · intro _
      split at h
      · rename_i e' he'
        obtain rfl : e' = e := Except.error.inj h
        exact mkSingleBlocksAux_error_check _ _ _ _ he' hc
      · split at h
        · exact absurd h (by simp)
        · obtain rfl : AddModelErr.keyError = e := Except.error.inj h
          simp [AddModelErr.isCheckError] at hc
    · intro hst'
      rw [hst'] at hst
      simp at hst
  · simp only [tsBlocks, if_neg hst] at h
    refine ⟨fun hq => absurd hq hst, fun _ => ?_⟩
    split at h
    · rename_i hlen
      exact Or.inl hlen
    · split at h
      · split at h
        · split at h
          · rename_i e' he'
            obtain rfl : e' = e := Except.error.inj h
            rw [mkGroupBlocksAux_error _ _ _ _ he'] at hc
            simp [AddModelErr.isCheckError] at hc
          · split at h
            · rename_i e' he'
              obtain rfl : e' = e := Except.error.inj h
              rw [staticLoopFrames_error he'] at hc
              simp at hc
            · exact absurd h (by simp)
        · rename_i hgt
          exact Or.inr hgt
      · obtain rfl : AddModelErr.indexError = e := Except.error.inj h
        simp [AddModelErr.isCheckError] at hc

/-- Completeness for the non-static frame-type check at the block step. -/
theorem tsBlocks_nonstatic_error {c : Ctx} {vm : List Nat} (hst : c.static = false)
    (hex : ∃ f ∈ c.am.frames, f.frame_type ≠ FrameType.SINGLE)
    (hverts : ∀ f ∈ c.am.frames, f.frame_type = FrameType.SINGLE →
      vm.all (fun v => v < f.frame.frame_verts.length) = true) :
    ∃ ft, tsBlocks c vm = .error (.frameTypeNonStatic ft) := by
  obtain ⟨ft, hmk⟩ := mkSingleBlocksAux_complete c.am.frames vm 0 hex hverts
  refine ⟨ft, ?_⟩
  simp only [tsBlocks, if_pos hst, hmk]

/-- Completeness for the static checks at the block step. -/
theorem tsBlocks_static_error {c : Ctx} {vm : List Nat} (hst : c.static = true)
    (hcond : c.frames.length ≠ 1 ∨
      ((c.frames.headD (0, 0)).2 < c.am.frames.length ∧
       (c.am.frames.getD (c.frames.headD (0, 0)).2 default).frame_type ≠ FrameType.GROUP)) :
    ∃ e, tsBlocks c vm = .error e ∧ e.isCheckError = true := by
  have hst' : ¬(c.static = false) := by
    rw [hst]
    simp
  by_cases hlen : c.frames.length ≠ 1
  · refine ⟨.staticFrameCount c.frames.length, ?_, rfl⟩
    simp only [tsBlocks, if_neg hst', if_pos hlen]
  · rcases hcond with hlen' | ⟨hfidx, hgt⟩
    · exact absurd hlen' hlen
    · refine ⟨.staticFrameType
        (c.am.frames.getD (c.frames.headD (0, 0)).2 default).frame_type, ?_, rfl⟩
      simp only [tsBlocks, if_neg hst', if_neg hlen, if_pos hfidx, if_neg hgt]

/-- Soundness of the check errors through one triangle-set iteration. -/
theorem processTriSet_error_check {c : Ctx} {idx : Nat} {ts : List Nat}
    {mats : List String} {e : AddModelErr}
    (h : processTriSet c idx ts mats = .error e) (hc : e.isCheckError = true) :
    (c.static = false → ∃ f ∈ c.am.frames, f.frame_type ≠ FrameType.SINGLE) ∧
    (c.static = true → c.frames.length ≠ 1 ∨
      (c.am.frames.getD (c.frames.headD (0, 0)).2 default).frame_type ≠ FrameType.GROUP) := by
  simp only [processTriSet] at h
  split at h
  · rename_i e' he'
    obtain rfl : e' = e := Except.error.inj h
    rw [initialPoseVerts_error he'] at hc
    simp [AddModelErr.isCheckError] at hc
  · split at h
    · split at h
      · split at h
        · rename_i e' he'
          obtain rfl : e' = e := Except.error.inj h
          exact tsBlocks_error_check he' hc
        · split at h
          · rename_i e' he'
            obtain rfl : e' = e := Except.error.inj h
            rw [tsMaterial_error he'] at hc
            simp [AddModelErr.isCheckError] at hc
          · exact absurd h (by simp)
      · obtain rfl : AddModelErr.indexError = e := Except.error.inj h
        simp [AddModelErr.isCheckError] at hc
    · obtain rfl : AddModelErr.indexError = e := Except.error.inj h
      simp [AddModelErr.isCheckError] at hc

/-- A block-step failure propagates out of the triangle-set iteration when
the earlier mesh steps succeed. -/
theorem processTriSet_error_of_blocks {c : Ctx} {idx : Nat} {ts : List Nat}
    {mats : List String} {iv : List Vec3} {e : AddModelErr}
    (hiv : initialPoseVerts c.am = .ok iv)
    (hts : ts.all (fun t => t < c.am.tris.length) = true)
    (hcov : ((_simplify_pydata iv (ts.map (fun t => c.am.tris.getD t []))).2).all
      (fun old_vert_idx => old_vert_idx < iv.length) = true)
    (hb : tsBlocks c (_simplify_pydata iv (ts.map (fun t => c.am.tris.getD t []))).2 =
      .error e) :
    processTriSet c idx ts mats = .error e := by
  simp only [processTriSet, hiv, if_pos hts, if_pos hcov, hb]

/-- Soundness of the check errors through the triangle-set loop. -/
theorem addModelGo_error_check (c : Ctx) :
    ∀ (sets : List (List Nat)) (idx : Nat) (mats : List String) (subs : List SubObj)
      (sal : List String) (e : AddModelErr),
      addModelGo c idx sets mats subs sal = .error e → e.isCheckError = true →
      (c.static = false → ∃ f ∈ c.am.frames, f.frame_type ≠ FrameType.SINGLE) ∧
      (c.static = true → c.frames.length ≠ 1 ∨
        (c.am.frames.getD (c.frames.headD (0, 0)).2 default).frame_type ≠ FrameType.GROUP)
  | [], idx, mats, subs, sal, e, h, _ => absurd h (by simp [addModelGo])
  | ts :: rest, idx, mats, subs, sal, e, h, hc => by
    simp only [addModelGo] at h
    split at h
    · rename_i e' he'
      obtain rfl : e' = e := Except.error.inj h
      exact processTriSet_error_check he' hc
    · rename_i r hr
      exact addModelGo_error_check c rest (idx + 1) r.2.1 (subs ++ [r.1]) (sal ++ r.2.2)
        e h hc

/-- A failure of the first triangle-set iteration is the loop's failure. -/
theorem addModelGo_error_head {c : Ctx} {idx : Nat} {ts : List Nat}
    {rest : List (List Nat)} {mats : List String} {subs : List SubObj}
    {sal : List String} {e : AddModelErr}
    (h : processTriSet c idx ts mats = .error e) :
    addModelGo c idx (ts :: rest) mats subs sal = .error e := by
  simp only [addModelGo, h]

/-- Soundness of the check errors through `add_model`. -/
theorem add_model_error_check {am : AliasMdl} {pal : List (List Rat)}
    {mdl_name obj_name : String} {frames : List (Rat × Nat)} {skin_idx : Nat}
    {final_time : Rat} {mdls_cfg : MdlsCfg} {static : Bool} {fps : Rat}
    {mats0 : List String} {e : AddModelErr}
    (h : add_model am pal mdl_name obj_name frames skin_idx final_time mdls_cfg
        static fps mats0 = .error e)
    (hc : e.isCheckError = true) :
    (static = false → ∃ f ∈ am.frames, f.frame_type ≠ FrameType.SINGLE) ∧
    (static = true → frames.length ≠ 1 ∨
      (am.frames.getD (frames.headD (0, 0)).2 default).frame_type ≠ FrameType.GROUP) := by
  simp only [add_model] at h
  split at h
  · split at h
    · rename_i e' he'
      obtain rfl : e' = e := Except.error.inj h
      exact addModelGo_error_check _ _ _ _ _ _ _ he' hc
    · split at h
      · obtain rfl : AddModelErr.nameError = e := Except.error.inj h
        simp [AddModelErr.isCheckError] at hc
      · exact absurd h (by simp)
  · obtain rfl : AddModelErr.valueError = e := Except.error.inj h
    simp [AddModelErr.isCheckError] at hc

/-- A loop failure with a valid palette is `add_model`'s failure. -/
theorem add_model_error_of_go {am : AliasMdl} {pal : List (List Rat)}
    {mdl_name obj_name : String} {frames : List (Rat × Nat)} {skin_idx : Nat}
    {final_time : Rat} {mdls_cfg : MdlsCfg} {static : Bool} {fps : Rat}
    {mats0 : List String} {e : AddModelErr}
    (hpal : pal.length = 256)
    (hgo : addModelGo ⟨am, mdl_name, obj_name, frames, skin_idx, final_time,
        _get_model_config mdl_name mdls_cfg, static, fps⟩ 0 am.disjoint_tri_sets
        mats0 [] [] = .error e) :
    add_model am pal mdl_name obj_name frames skin_idx final_time mdls_cfg
      static fps mats0 = .error e := by
  simp only [add_model, if_pos hpal, hgo]

/-- Claim C1 (amended): over models whose first triangle set and initial pose
are readable (valid palette, at least one triangle set with in-range
triangle indices, readable first pose whose vertex list covers that set's
vertex map, `SINGLE` frames covering the first set's vertex map, and — in
static mode with one supplied frame — an in-range frame index),
`add_model`'s explicit precondition checks raise exactly as described: in
non-static mode iff some frame is non-`SINGLE`, and in static mode iff the
supplied frame list does not have exactly one entry or the selected frame
is not a `GROUP` frame. -/
theorem C1_checks_iff (am : AliasMdl) (pal : List (List Rat)) (mdl_name obj_name : String)
    (frames : List (Rat × Nat)) (skin_idx : Nat) (final_time : Rat) (mdls_cfg : MdlsCfg)
    (static : Bool) (fps : Rat) (mats0 : List String) (iv : List Vec3)
    (hpal : pal.length = 256)
    (hsets : am.disjoint_tri_sets ≠ [])
    (hiv : initialPoseVerts am = .ok iv)
    (hbound : (am.disjoint_tri_sets.headD []).all (fun t => t < am.tris.length) = true)
    (hcover : ((_simplify_pydata iv
        ((am.disjoint_tri_sets.headD []).map (fun t => am.tris.getD t []))).2).all
      (fun old_vert_idx => old_vert_idx < iv.length) = true)
    (hverts : ∀ f ∈ am.frames, f.frame_type = FrameType.SINGLE →
      ((_simplify_pydata iv
          ((am.disjoint_tri_sets.headD []).map (fun t => am.tris.getD t []))).2).all
        (fun v => v < f.frame.frame_verts.length) = true)
    (hsel : static = true → frames.length = 1 →
      (frames.headD (0, 0)).2 < am.frames.length) :
    (static = false →
      ((∃ e, add_model am pal mdl_name obj_name frames skin_idx final_time mdls_cfg
          static fps mats0 = .error e ∧ e.isCheckError = true) ↔
        ∃ f ∈ am.frames, f.frame_type ≠ FrameType.SINGLE)) ∧
    (static = true →
      ((∃ e, add_model am pal mdl_name obj_name frames skin_idx final_time mdls_cfg
          static fps mats0 = .error e ∧ e.isCheckError = true) ↔
        (frames.length ≠ 1 ∨
          (am.frames.getD (frames.headD (0, 0)).2 default).frame_type ≠
            FrameType.GROUP))) := by
  obtain ⟨ts0, rest, hsplit⟩ : ∃ a t, am.disjoint_tri_sets = a :: t := by
    cases hs : am.disjoint_tri_sets with
    | nil => exact absurd hs hsets
    | cons a t => exact ⟨a, t, rfl⟩
  rw [hsplit] at hbound hcover hverts
  simp only [List.headD_cons] at hbound hcover hverts
  constructor
  · intro hst
    subst hst
    constructor
    · rintro ⟨e, he, hc⟩
      exact (add_model_error_check he hc).1 rfl
    · intro hex
      obtain ⟨ft, hb⟩ := @tsBlocks_nonstatic_error
        ⟨am, mdl_name, obj_name, frames, skin_idx, final_time,
          _get_model_config mdl_name mdls_cfg, false, fps⟩
        ((_simplify_pydata iv (ts0.map (fun t => am.tris.getD t []))).2)
        rfl hex hverts
      have hps := @processTriSet_error_of_blocks _ 0 ts0 mats0 iv _ hiv hbound hcover hb
      have hgo := @addModelGo_error_head _ 0 ts0 rest mats0 [] [] _ hps
      rw [← hsplit] at hgo
      exact ⟨_, add_model_error_of_go hpal hgo, rfl⟩
  · intro hst
    subst hst
    constructor
    · rintro ⟨e, he, hc⟩
      exact (add_model_error_check he hc).2 rfl
    · intro hcond
      have hcond' : frames.length ≠ 1 ∨
          ((frames.headD (0, 0)).2 < am.frames.length ∧
           (am.frames.getD (frames.headD (0, 0)).2 default).frame_type ≠
             FrameType.GROUP) := by
        by_cases hlen : frames.length = 1
        · rcases hcond with hlen' | hgt
          · exact absurd hlen hlen'
          · exact Or.inr ⟨hsel rfl hlen, hgt⟩
        · exact Or.inl hlen
      obtain ⟨e, hb, hc⟩ := @tsBlocks_static_error
        ⟨am, mdl_name, obj_name, frames, skin_idx, final_time,
          _get_model_config mdl_name mdls_cfg, true, fps⟩
        ((_simplify_pydata iv (ts0.map (fun t => am.tris.getD t []))).2)
        rfl hcond'
      have hps := @processTriSet_error_of_blocks _ 0 ts0 mats0 iv _ hiv hbound hcover hb
      have hgo := @addModelGo_error_head _ 0 ts0 rest mats0 [] [] _ hps
      rw [← hsplit] at hgo
      exact ⟨e, add_model_error_of_go hpal hgo, hc⟩

/-- Witness for C1 on the minimal (all-`SINGLE`, non-static) model: the
hypotheses hold concretely and the equivalence follows — here both sides
are false, i.e. no check error is raised. -/
theorem C1_checks_iff_witness :
    (wPal.length = 256 ∧
      wAm.disjoint_tri_sets ≠ [] ∧
      initialPoseVerts wAm = .ok [(0, 0, 0)] ∧
      (wAm.disjoint_tri_sets.headD []).all (fun t => t < wAm.tris.length) = true ∧
      ((_simplify_pydata ([(0, 0, 0)] : List Vec3)
          ((wAm.disjoint_tri_sets.headD []).map (fun t => wAm.tris.getD t []))).2).all
        (fun old_vert_idx => old_vert_idx < ([(0, 0, 0)] : List Vec3).length) = true ∧
      (∀ f ∈ wAm.frames, f.frame_type = FrameType.SINGLE →
        ((_simplify_pydata ([(0, 0, 0)] : List Vec3)
            ((wAm.disjoint_tri_sets.headD []).map (fun t => wAm.tris.getD t []))).2).all
          (fun v => v < f.frame.frame_verts.length) = true) ∧
      (false = true → ([(0, 0)] : List (Rat × Nat)).length = 1 →
        (([(0, 0)] : List (Rat × Nat)).headD (0, 0)).2 < wAm.frames.length)) ∧
    ((false = false →
      ((∃ e, add_model wAm wPal "m" "o" [(0, 0)] 0 0 wCfgF false 30 [] = .error e ∧
          e.isCheckError = true) ↔
        ∃ f ∈ wAm.frames, f.frame_type ≠ FrameType.SINGLE)) ∧
     (false = true →
      ((∃ e, add_model wAm wPal "m" "o" [(0, 0)] 0 0 wCfgF false 30 [] = .error e ∧
          e.isCheckError = true) ↔
        (([(0, 0)] : List (Rat × Nat)).length ≠ 1 ∨
          (wAm.frames.getD (([(0, 0)] : List (Rat × Nat)).headD (0, 0)).2
            default).frame_type ≠ FrameType.GROUP)))) :=
  ⟨⟨by simp [wPal], by decide, rfl, by decide, by decide, by decide, by decide⟩,
   C1_checks_iff wAm wPal "m" "o" [(0, 0)] 0 0 wCfgF false 30 [] [(0, 0, 0)]
     (by simp [wPal]) (by decide) rfl (by decide) (by decide) (by decide) (by decide)⟩

/-- Counterexample to C1 as stated: the checks live inside the per-triangle-
set loop, so on a model with a non-`SINGLE` frame but no disjoint triangle
sets a non-static call raises no check error at all — it fails with the
`NameError` on `blocks` at the final `return` instead. -/
theorem C1_counterexample :
    add_model wAmNoSets wPal "m" "o" [] 0 0 wCfgF false 30 [] =
      .error AddModelErr.nameError ∧
    AddModelErr.nameError.isCheckError = false ∧
    wAmNoSets.frames.length = 1 ∧
    (wAmNoSets.frames.getD 0 default).frame_type ≠ FrameType.SINGLE :=
  ⟨rfl, rfl, rfl, by decide⟩

end BlendMdl
